import Mathlib

/-!
Verification development for the OpenJ9 module/package linkage subsystem
(the `JVM_DefineModule` / export / read-access natives and their static
helpers).  The state of the module graph is embedded shallowly: hash
tables become lists searched with the source's key-equality functions,
pool allocation and the other fallible native allocations are driven by
an explicit allocation oracle (a list of booleans consumed one per
fallible allocation event; an empty oracle means every allocation
succeeds), and pending exceptions are an explicit state field.
-/

namespace J9

/-- Identity of a `J9Module` record (a stable pool pointer in the source). -/
abbrev ModuleId := Nat

/-- Identity of a `J9ClassLoader` (a stable pointer in the source). -/
abbrev LoaderId := Nat

/-- The modularity error codes returned by the static helpers
(`ERRCODE_*` in the source). -/
inductive ErrCode where
  | success
  | generalFailure
  | packageAlreadyDefined
  | moduleAlreadyDefined
  | hashtableOperationFailed
  | duplicatePackageInList
  | moduleWasntFound
  | packageWasntFound
deriving DecidableEq, Repr

/-- Result of `hashTableAtPut` (`HASHTABLE_ATPUT_SUCCESS` is 0; both
failure codes are nonzero in the source). -/
inductive AtPutResult where
  | success
  | generalFailure
  | collisionFailure
deriving DecidableEq, Repr

/-- The exception categories raised by the boundary functions
(`setCurrentExceptionNLS` / `setNativeOutOfMemoryError` /
`throwExceptionHelper` calls in the source). -/
inductive ExceptionKind where
  | nullPointer
  | illegalArgument
  | layerInstantiation
  | outOfMemory
deriving DecidableEq, Repr

/-- A `J9Package` record: one named package owned by one module within one
class loader.  `exportsTo` is the `exportsHashTable` (a module-pointer
table).  The `exportToAll` / `exportToAllUnnamed` flags mirror the
source's fields of the same names. -/
structure J9Package where
  packageName : String
  classLoader : LoaderId
  module : ModuleId
  exportToAll : Bool
  exportToAllUnnamed : Bool
  exportsTo : List ModuleId
deriving DecidableEq, Repr

/-- A `J9Module` record.  `moduleName = none` models an unnamed module.
`readAccess` is the `readAccessHashTable` (modules allowed to read this
one).  `removeAccess` / `removeExports` are the lazily created reverse
index tables (`removeAccessHashTable` / `removeExportsHashTable`); the
`...Allocated` booleans model whether the corresponding table pointer is
non-null (the tables are created on first use and creation can fail). -/
structure J9Module where
  moduleName : Option String
  classLoader : LoaderId
  version : Option String
  isOpen : Bool
  isLoose : Bool
  readAccess : List ModuleId
  removeAccessAllocated : Bool
  removeAccess : List ModuleId
  removeExportsAllocated : Bool
  removeExports : List (LoaderId × String)
deriving DecidableEq, Repr

/-- The default (zero-initialized) module record, as produced by
`pool_newElement` on the modularity pool. -/
def J9Module.blank : J9Module :=
  { moduleName := none, classLoader := 0, version := none, isOpen := false
    isLoose := false, readAccess := [], removeAccessAllocated := false
    removeAccess := [], removeExportsAllocated := false, removeExports := [] }

/-- A class loader's module-graph tables: the name-keyed `packageHashTable`,
the pointer-keyed `moduleHashTable`, and the set of package names from
which this loader has already loaded a class (the class hash table
abstraction consulted by `isAnyClassLoadedFromPackage`). -/
structure J9ClassLoader where
  packageHashTable : List J9Package
  moduleHashTable : List ModuleId
  loadedClassPackages : List String
deriving DecidableEq, Repr

/-- A freshly created class loader with empty tables. -/
def J9ClassLoader.empty : J9ClassLoader :=
  { packageHashTable := [], moduleHashTable := [], loadedClassPackages := [] }

/-- The `java.lang.Module` object passed across the JNI boundary to
`JVM_DefineModule`: its loader reference (null means the system/boot
loader) and its name string.  `oid` is the object identity used for
handle comparison. -/
structure ModuleObject where
  oid : Nat
  loader : Option LoaderId
  name : Option String
deriving DecidableEq, Repr

/-- The VM state visible to the module subsystem.  `allocs` is the
allocation oracle: each fallible native allocation event pops the head
(an empty list grants every request).  `javaBaseCreated` models the
`J9_RUNTIME_JAVA_BASE_MODULE_CREATED` bit of `vm->runtimeFlags`.
`assertionFailed` records a tripped `Assert_SC_true`. -/
structure JavaVM where
  loaders : List (LoaderId × J9ClassLoader)
  modulePool : List (ModuleId × J9Module)
  javaBaseCreated : Bool
  systemClassLoader : LoaderId
  extensionClassLoader : LoaderId
  javaBaseModule : ModuleId
  unamedModuleForSystemLoader : ModuleId
  nextModuleId : ModuleId
  allocs : List Bool
  pendingException : Option ExceptionKind
  assertionFailed : Bool
deriving DecidableEq, Repr

/-! ### Association-list primitives for the loader map and the module pool -/

/-- Look up an association list by key. -/
def lookupAssoc (k : Nat) : List (Nat × β) → Option β
  | [] => none
  | e :: rest => if e.1 = k then some e.2 else lookupAssoc k rest

/-- Replace the binding of `k` (first occurrence), or append it. -/
def setAssoc (k : Nat) (v : β) : List (Nat × β) → List (Nat × β)
  | [] => [(k, v)]
  | e :: rest => if e.1 = k then (k, v) :: rest else e :: setAssoc k v rest

@[simp]
theorem lookupAssoc_setAssoc_self (k : Nat) (v : β) (l : List (Nat × β)) :
    lookupAssoc k (setAssoc k v l) = some v := by
  induction l with
  | nil => simp [setAssoc, lookupAssoc]
  | cons e rest ih =>
    by_cases h : e.1 = k
    · simp [setAssoc, lookupAssoc, h]
    · simp [setAssoc, lookupAssoc, h, ih]

theorem lookupAssoc_setAssoc_ne (k k' : Nat) (v : β) (l : List (Nat × β)) (h : k' ≠ k) :
    lookupAssoc k' (setAssoc k v l) = lookupAssoc k' l := by
  induction l with
  | nil => simp [setAssoc, lookupAssoc, Ne.symm h]
  | cons e rest ih =>
    by_cases he : e.1 = k
    · simp [setAssoc, lookupAssoc, he, Ne.symm h]
    · by_cases he' : e.1 = k'
      · simp [setAssoc, lookupAssoc, he, he', h]
      · simp [setAssoc, lookupAssoc, he, he', ih]

@[simp]
theorem setAssoc_setAssoc_self (k : Nat) (v w : β) (l : List (Nat × β)) :
    setAssoc k v (setAssoc k w l) = setAssoc k v l := by
  induction l with
  | nil => simp [setAssoc]
  | cons e rest ih =>
    by_cases h : e.1 = k
    · simp [setAssoc, h]
    · simp [setAssoc, h, ih]

theorem setAssoc_lookupAssoc_self (k : Nat) (v : β) (l : List (Nat × β))
    (h : lookupAssoc k l = some v) : setAssoc k v l = l := by
  induction l with
  | nil => simp [lookupAssoc] at h
  | cons e rest ih =>
    by_cases he : e.1 = k
    · simp [lookupAssoc, he] at h
      cases e
      simp_all [setAssoc]
    · simp [lookupAssoc, he] at h
      simp [setAssoc, he, ih h]

/-! ### State accessors and updaters -/

/-- Read a class loader's tables (a missing id reads as an empty loader;
the claims below only use states whose loaders are present). -/
def getLoader (vm : JavaVM) (l : LoaderId) : J9ClassLoader :=
  (lookupAssoc l vm.loaders).getD J9ClassLoader.empty

/-- Write a class loader's tables back. -/
def setLoader (vm : JavaVM) (l : LoaderId) (c : J9ClassLoader) : JavaVM :=
  { vm with loaders := setAssoc l c vm.loaders }

/-- Read a module record from the pool (a missing id reads as the blank
record; the claims below only use states whose modules are present). -/
def getModule (vm : JavaVM) (m : ModuleId) : J9Module :=
  (lookupAssoc m vm.modulePool).getD J9Module.blank

/-- Write a module record back to the pool. -/
def setModule (vm : JavaVM) (m : ModuleId) (rec : J9Module) : JavaVM :=
  { vm with modulePool := setAssoc m rec vm.modulePool }

/-- Update a module record in place. -/
def updateModule (vm : JavaVM) (m : ModuleId) (f : J9Module → J9Module) : JavaVM :=
  setModule vm m (f (getModule vm m))

/-- Pop one outcome from the allocation oracle.  An exhausted oracle
grants the allocation. -/
def takeAlloc (vm : JavaVM) : Bool × JavaVM :=
  match vm.allocs with
  | [] => (true, vm)
  | a :: rest => (a, { vm with allocs := rest })

/-- Record a pending exception (`setCurrentException*` /
`setNativeOutOfMemoryError`). -/
def setException (vm : JavaVM) (e : ExceptionKind) : JavaVM :=
  { vm with pendingException := some e }

/-- Model of `Assert_SC_true`: a failed assertion is recorded in the
state (in a real VM it aborts the process). -/
def assertSC (b : Bool) (vm : JavaVM) : JavaVM :=
  if b then vm else { vm with assertionFailed := true }

@[simp] theorem getLoader_setLoader_self (vm : JavaVM) (l : LoaderId) (c : J9ClassLoader) :
    getLoader (setLoader vm l c) l = c := by
  simp [getLoader, setLoader]

theorem getLoader_setLoader_ne (vm : JavaVM) (l l' : LoaderId) (c : J9ClassLoader)
    (h : l' ≠ l) : getLoader (setLoader vm l c) l' = getLoader vm l' := by
  simp [getLoader, setLoader, lookupAssoc_setAssoc_ne _ _ _ _ h]

@[simp] theorem getModule_setModule_self (vm : JavaVM) (m : ModuleId) (rec : J9Module) :
    getModule (setModule vm m rec) m = rec := by
  simp [getModule, setModule]

theorem getModule_setModule_ne (vm : JavaVM) (m m' : ModuleId) (rec : J9Module)
    (h : m' ≠ m) : getModule (setModule vm m rec) m' = getModule vm m' := by
  simp [getModule, setModule, lookupAssoc_setAssoc_ne _ _ _ _ h]

@[simp] theorem setLoader_javaBaseCreated (vm : JavaVM) (l : LoaderId) (c : J9ClassLoader) :
    (setLoader vm l c).javaBaseCreated = vm.javaBaseCreated := rfl

@[simp] theorem setModule_javaBaseCreated (vm : JavaVM) (m : ModuleId) (rec : J9Module) :
    (setModule vm m rec).javaBaseCreated = vm.javaBaseCreated := rfl

@[simp] theorem updateModule_javaBaseCreated (vm : JavaVM) (m : ModuleId) (f : J9Module → J9Module) :
    (updateModule vm m f).javaBaseCreated = vm.javaBaseCreated := rfl

@[simp] theorem setException_javaBaseCreated (vm : JavaVM) (e : ExceptionKind) :
    (setException vm e).javaBaseCreated = vm.javaBaseCreated := rfl

@[simp] theorem assertSC_javaBaseCreated (b : Bool) (vm : JavaVM) :
    (assertSC b vm).javaBaseCreated = vm.javaBaseCreated := by
  simp [assertSC]
  split <;> rfl

@[simp] theorem takeAlloc_javaBaseCreated (vm : JavaVM) :
    (takeAlloc vm).2.javaBaseCreated = vm.javaBaseCreated := by
  simp only [takeAlloc]
  split <;> rfl

/-! ### The generic hash-table helper -/

/-- Embedding of the static `hashTableAtPut` helper: `hashTableFind` with
the table's key-equality function, then `hashTableAdd` only when no
conflicting entry exists.  `hashTableAdd` is a fallible native
allocation, so the no-collision branch consumes one oracle outcome. -/
def hashTableAtPut (keyEq : α → α → Bool) (collisionIsFailure : Bool)
    (table : List α) (value : α) (allocs : List Bool) :
    AtPutResult × List α × List Bool :=
  match table.find? (fun x => keyEq x value) with
  | some _ =>
    if collisionIsFailure then (AtPutResult.collisionFailure, table, allocs)
    else (AtPutResult.success, table, allocs)
  | none =>
    match allocs with
    | [] => (AtPutResult.success, value :: table, [])
    | a :: rest =>
      if a then (AtPutResult.success, value :: table, rest)
      else (AtPutResult.generalFailure, table, rest)

/-- Key equality of the name-keyed package hash table. -/
def packageKeyEq (a b : J9Package) : Bool := a.packageName == b.packageName

/-- `hashTableAtPut` on a class loader's `packageHashTable`. -/
def packageTableAtPut (vm : JavaVM) (l : LoaderId) (pkg : J9Package)
    (collisionIsFailure : Bool) : AtPutResult × JavaVM :=
  let loader := getLoader vm l
  let r := hashTableAtPut packageKeyEq collisionIsFailure loader.packageHashTable pkg vm.allocs
  (r.1, setLoader { vm with allocs := r.2.2 } l { loader with packageHashTable := r.2.1 })

/-- `hashTableAtPut` on a class loader's pointer-keyed `moduleHashTable`. -/
def moduleTableAtPut (vm : JavaVM) (l : LoaderId) (m : ModuleId)
    (collisionIsFailure : Bool) : AtPutResult × JavaVM :=
  let loader := getLoader vm l
  let r := hashTableAtPut (fun a b => a == b) collisionIsFailure loader.moduleHashTable m vm.allocs
  (r.1, setLoader { vm with allocs := r.2.2 } l { loader with moduleHashTable := r.2.1 })

/-! ### Lookup helpers (the ones whose bodies live outside the reviewed
translation units are modelled from the spec) -/

/-- Modelled from the spec: `hashPackageTableAt` (defined outside the
material under src/) looks a package record up by name in the class
loader's name-keyed package table. -/
def hashPackageTableAt (vm : JavaVM) (l : LoaderId) (packageName : String) : Option J9Package :=
  (getLoader vm l).packageHashTable.find? (fun p => p.packageName == packageName)

/-- Embedding of the static `isPackageDefined`. -/
def isPackageDefined (vm : JavaVM) (classLoader : LoaderId) (packageName : String) : Bool :=
  (hashPackageTableAt vm classLoader packageName).isSome

/-- Modelled from the spec: `isModuleDefined` (defined outside the
material under src/) — a module is defined when it is present in its
owning class loader's module registry (name-keyed table of the loader;
here the pointer-keyed module hash table). -/
def isModuleDefined (vm : JavaVM) (m : ModuleId) : Bool :=
  (getLoader vm (getModule vm m).classLoader).moduleHashTable.contains m

/-- Modelled from the spec: `isAnyClassLoadedFromPackage` (defined
outside the material under src/) — whether the class loader has already
loaded some class belonging to the named package (a query on the
loader's class table, independent of the package records). -/
def isAnyClassLoadedFromPackage (vm : JavaVM) (l : LoaderId) (packageName : String) : Bool :=
  (getLoader vm l).loadedClassPackages.contains packageName

/-- Embedding of the static `areNoPackagesDefined`: the check is skipped
entirely while `java.base` has not been created, and otherwise fails as
soon as some requested package already has a loaded class. -/
def areNoPackagesDefined (vm : JavaVM) (classLoader : LoaderId)
    (packages : Option (List String)) : Bool :=
  let checkDefinedPackages := vm.javaBaseCreated
  match packages with
  | none => true
  | some ps =>
    ps.all (fun p => !(checkDefinedPackages && isAnyClassLoadedFromPackage vm classLoader p))

/-! ### Package creation, insertion, removal -/

/-- Embedding of the static `createPackage`: allocates and initializes a
provisional package record.  Its three fallible allocation sites
(`pool_newElement`, `addUTFNameToPackage`, `hashModulePointerTableNew`)
are collapsed into a single oracle event because every one of them
produces the same observable outcome (null return, record freed, OOM
pending). -/
def createPackage (vm : JavaVM) (fromModule : ModuleId) (package : String) :
    Option J9Package × JavaVM :=
  let t := takeAlloc vm
  if t.1 then
    (some { packageName := package
            classLoader := (getModule t.2 fromModule).classLoader
            module := fromModule
            exportToAll := false
            exportToAllUnnamed := false
            exportsTo := [] }, t.2)
  else (none, setException t.2 ExceptionKind.outOfMemory)

/-- Embedding of the static `addPackageDefinition`: create the record and
insert it into the loader's package table with collision-is-failure
semantics.  The `freePackage` on failure only releases native memory and
has no observable effect on the embedded state. -/
def addPackageDefinition (vm : JavaVM) (fromModule : ModuleId) (package : String) :
    Bool × JavaVM :=
  let c := createPackage vm fromModule package
  match c.1 with
  | none => (false, c.2)
  | some pkg =>
    let put := packageTableAtPut c.2 (getModule c.2 fromModule).classLoader pkg true
    (put.1 = AtPutResult.success, put.2)

/-- Embedding of the static `hashPackageTableDelete`: remove the record
with the given name from the loader's package table; returns true when a
record was removed (source return code 0).  The name-copy buffer of
`addUTFNameToPackage` is the stack buffer here (no oracle event). -/
def hashPackageTableDelete (vm : JavaVM) (classLoader : LoaderId) (packageName : String) :
    Bool × JavaVM :=
  let loader := getLoader vm classLoader
  if loader.packageHashTable.any (fun p => p.packageName == packageName) then
    (true, setLoader vm classLoader
      { loader with
        packageHashTable := loader.packageHashTable.eraseP (fun p => p.packageName == packageName) })
  else (false, vm)

/-- Embedding of the static `removePackageDefinition` (the subsequent
`freePackageDefinition` only frees native memory). -/
def removePackageDefinition (vm : JavaVM) (fromModule : ModuleId) (packageName : String) :
    Bool × JavaVM :=
  hashPackageTableDelete vm (getModule vm fromModule).classLoader packageName

/-- Embedding of the static `removeMulPackageDefinitions`: walk
`packagesIndex` down to 0, removing each package and asserting that the
removal succeeded.  An index one past the end of the list (which the
module-insertion failure path of `addModuleDefinition` passes) reads the
out-of-bounds element as the empty string.  The loop body (remove, then
`Assert_SC_true` on the result) is `removePackageStep`. -/
def removePackageStep (fromModule : ModuleId) (packageName : String) (vm : JavaVM) : JavaVM :=
  let r := removePackageDefinition vm fromModule packageName
  assertSC r.1 r.2

/-- Embedding of the loop of `removeMulPackageDefinitions` proper. -/
def removeMulPackageDefinitions (fromModule : ModuleId) (packages : List String) :
    Nat → JavaVM → JavaVM
  | 0, vm => removePackageStep fromModule (packages.getD 0 "") vm
  | i + 1, vm =>
    removeMulPackageDefinitions fromModule packages i
      (removePackageStep fromModule (packages.getD (i + 1) "") vm)

/-- The for-loop of `addMulPackageDefinitions`, returning the error code
chosen at a break, the number of packages successfully inserted before
the loop stopped, and the updated state.  Note the source's slip: when
`addPackageDefinition` fails but the failed name is not present in the
table (allocation failure rather than collision), `retval` keeps
`ERRCODE_SUCCESS`. -/
def addMulPackageLoop (fromModule : ModuleId) : List String → JavaVM → ErrCode × Nat × JavaVM
  | [], vm => (ErrCode.success, 0, vm)
  | p :: rest, vm =>
    let r := addPackageDefinition vm fromModule p
    if r.1 then
      let r2 := addMulPackageLoop fromModule rest r.2
      (r2.1, r2.2.1 + 1, r2.2.2)
    else
      (if isPackageDefined r.2 (getModule r.2 fromModule).classLoader p
        then ErrCode.duplicatePackageInList else ErrCode.success, 0, r.2)

/-- Embedding of the static `addMulPackageDefinitions`: run the insertion
loop; when the loop chose a non-`SUCCESS` code and at least one package
made it in, roll the inserted prefix back in reverse order. -/
def addMulPackageDefinitions (vm : JavaVM) (fromModule : ModuleId)
    (packages : Option (List String)) : ErrCode × JavaVM :=
  match packages with
  | none => (ErrCode.success, vm)
  | some ps =>
    if ps.length = 0 then (ErrCode.success, vm)
    else
      let r := addMulPackageLoop fromModule ps vm
      if r.1 ≠ ErrCode.success then
        if 0 < r.2.1 then
          (r.1, removeMulPackageDefinitions fromModule ps (r.2.1 - 1) r.2.2)
        else (r.1, r.2.2)
      else (r.1, r.2.2)

/-- Embedding of the static `addModuleDefinition`: the pre-checks, the
package-insertion phase, the module-table insertion, and the version
store.  The version is written right after the module-table put,
whether or not that put succeeded — exactly as in the source. -/
def addModuleDefinition (vm : JavaVM) (fromModule : ModuleId)
    (packages : Option (List String)) (version : Option String) : ErrCode × JavaVM :=
  let classLoader := (getModule vm fromModule).classLoader
  if ¬ areNoPackagesDefined vm classLoader packages then
    (ErrCode.packageAlreadyDefined, vm)
  else if isModuleDefined vm fromModule then
    (ErrCode.moduleAlreadyDefined, vm)
  else
    let r := addMulPackageDefinitions vm fromModule packages
    if r.1 = ErrCode.success then
      let put := moduleTableAtPut r.2 classLoader fromModule true
      let succ := put.1 = AtPutResult.success
      let vm2 := match version with
        | some v => updateModule put.2 fromModule (fun m => { m with version := some v })
        | none => put.2
      if ¬ succ then
        let vm3 := match packages with
          | some ps => removeMulPackageDefinitions fromModule ps ps.length vm2
          | none => vm2
        (ErrCode.hashtableOperationFailed, vm3)
      else (ErrCode.success, vm2)
    else r

/-! ### Export resolver -/

/-- Replace the first list element satisfying a test. -/
def updateFirstBy (p : α → Bool) (f : α → α) : List α → List α
  | [] => []
  | x :: rest => if p x then f x :: rest else x :: updateFirstBy p f rest

/-- Update the first package record with the given name in a loader's
package table (the source mutates the record through the pointer that
`hashPackageTableAt` returned, which points into this table). -/
def updateFirstPackage (vm : JavaVM) (l : LoaderId) (name : String)
    (f : J9Package → J9Package) : JavaVM :=
  let loader := getLoader vm l
  setLoader vm l
    { loader with
      packageHashTable := updateFirstBy (fun p => p.packageName == name) f loader.packageHashTable }

/-- Modelled from the spec: `getPackageDefinition` (defined outside the
material under src/) locates the package record named `package` owned by
`fromModule`, with `MODULE_WASNT_FOUND` when `fromModule` is not a
registered module and `PACKAGE_WASNT_FOUND` when the package is absent
or owned by a different module. -/
def getPackageDefinition (vm : JavaVM) (fromModule : ModuleId) (package : String) :
    Option J9Package × ErrCode :=
  if ¬ isModuleDefined vm fromModule then (none, ErrCode.moduleWasntFound)
  else
    match hashPackageTableAt vm (getModule vm fromModule).classLoader package with
    | none => (none, ErrCode.packageWasntFound)
    | some pkg =>
      if pkg.module = fromModule then (some pkg, ErrCode.success)
      else (none, ErrCode.packageWasntFound)

/-- Embedding of the static `exportPackageToAll`. -/
def exportPackageToAll (vm : JavaVM) (fromModule : ModuleId) (package : String) :
    ErrCode × JavaVM :=
  let g := getPackageDefinition vm fromModule package
  match g.1 with
  | none => (g.2, vm)
  | some pkg =>
    (g.2, updateFirstPackage vm (getModule vm fromModule).classLoader pkg.packageName
            (fun p => { p with exportToAll := true }))

/-- Embedding of the static `exportPackageToAllUnamed` (the source spells
the name this way). -/
def exportPackageToAllUnamed (vm : JavaVM) (fromModule : ModuleId) (package : String) :
    ErrCode × JavaVM :=
  let g := getPackageDefinition vm fromModule package
  match g.1 with
  | none => (g.2, vm)
  | some pkg =>
    (g.2, updateFirstPackage vm (getModule vm fromModule).classLoader pkg.packageName
            (fun p => { p with exportToAllUnnamed := true }))

/-- The second `hashTableAtPut` of `exportPackageToModule`: insert the
package reference into `toModule->removeExportsHashTable`. -/
def exportReversePut (vm : JavaVM) (l : LoaderId) (name : String) (toModule : ModuleId) :
    ErrCode × JavaVM :=
  let m := getModule vm toModule
  let put2 := hashTableAtPut (fun a b => a == b) false m.removeExports (l, name) vm.allocs
  if put2.1 = AtPutResult.success then
    (ErrCode.success, updateModule { vm with allocs := put2.2.2 } toModule
      (fun mm => { mm with removeExports := put2.2.1 }))
  else (ErrCode.hashtableOperationFailed, { vm with allocs := put2.2.2 })

/-- Embedding of the static `exportPackageToModule`: insert `toModule`
into the package's `exportsHashTable` (collision is not a failure), then
record the package in `toModule->removeExportsHashTable` (created
lazily on first use), so that unloading `toModule` can retract the
export.  A failed `hashTableAtPut` leaves the table unchanged, so the
failure branches only consume the allocation outcome. -/
def exportReverseSegment (vm : JavaVM) (l : LoaderId) (package : String)
    (toModule : ModuleId) : ErrCode × JavaVM :=
  if ¬ (getModule vm toModule).removeExportsAllocated then
    let ta := takeAlloc vm
    if ta.1 then
      let vm2 := updateModule ta.2 toModule
        (fun m => { m with removeExportsAllocated := true })
      exportReversePut vm2 l package toModule
    else (ErrCode.hashtableOperationFailed, ta.2)
  else exportReversePut vm l package toModule

/-- Embedding of the static `exportPackageToModule` proper: the lookup,
the target-module check, the forward insert into the package's
`exportsHashTable`, and the reverse bookkeeping above. -/
def exportPackageToModule (vm : JavaVM) (fromModule : ModuleId) (package : String)
    (toModule : ModuleId) : ErrCode × JavaVM :=
  let g := getPackageDefinition vm fromModule package
  match g.1 with
  | none => (g.2, vm)
  | some pkg =>
    if isModuleDefined vm toModule then
      let l := (getModule vm fromModule).classLoader
      let put1 := hashTableAtPut (fun a b => a == b) false pkg.exportsTo toModule vm.allocs
      if put1.1 = AtPutResult.success then
        let vm1 := updateFirstPackage { vm with allocs := put1.2.2 } l pkg.packageName
          (fun p => { p with exportsTo := put1.2.1 })
        exportReverseSegment vm1 l pkg.packageName toModule
      else (ErrCode.hashtableOperationFailed, { vm with allocs := put1.2.2 })
    else (ErrCode.moduleWasntFound, vm)

/-! ### Readability manager -/

/-- Modelled from the spec: the `J9_IS_J9MODULE_UNNAMED` macro (defined in
a header outside src/) — a module reference is unnamed when it is null
or when its record carries no name. -/
def J9_IS_J9MODULE_UNNAMED (vm : JavaVM) : Option ModuleId → Bool
  | none => true
  | some m => (getModule vm m).moduleName.isNone

/-- The reverse-edge `hashTableAtPut` of `allowReadAccessToModule`:
insert `toModule` into `fromModule->removeAccessHashTable`.  Sets
`success = FALSE` (mapped to `HASHTABLE_OPERATION_FAILED`) when the
insert fails. -/
def allowReadReversePut (vm : JavaVM) (fromModule : ModuleId) (t : ModuleId) :
    ErrCode × JavaVM :=
  let m := getModule vm fromModule
  let put2 := hashTableAtPut (fun a b => a == b) false m.removeAccess t vm.allocs
  if put2.1 = AtPutResult.success then
    (ErrCode.success, updateModule { vm with allocs := put2.2.2 } fromModule
      (fun mm => { mm with removeAccess := put2.2.1 }))
  else (ErrCode.hashtableOperationFailed, { vm with allocs := put2.2.2 })

/-- Embedding of the static `allowReadAccessToModule`.  Note the source's
quirk, reproduced here: when the forward insert succeeded but the lazy
creation of `removeAccessHashTable` fails, `retval` is first set to
`HASHTABLE_OPERATION_FAILED` and then overwritten with `SUCCESS` by the
final `if (success)` — the call reports success with the forward edge
present and no reverse entry. -/
def allowReadAccessToModule (vm : JavaVM) (fromModule : ModuleId)
    (toModule : Option ModuleId) : ErrCode × JavaVM :=
  if ¬ isModuleDefined vm fromModule then (ErrCode.moduleWasntFound, vm)
  else if J9_IS_J9MODULE_UNNAMED vm toModule then
    (ErrCode.success, updateModule vm fromModule (fun m => { m with isLoose := true }))
  else
    match toModule with
    | none => (ErrCode.moduleWasntFound, vm)
    | some t =>
      if isModuleDefined vm t then
        let put1 := hashTableAtPut (fun a b => a == b) false (getModule vm t).readAccess
          fromModule vm.allocs
        if put1.1 = AtPutResult.success then
          let vm1 := updateModule { vm with allocs := put1.2.2 } t
            (fun m => { m with readAccess := put1.2.1 })
          if ¬ (getModule vm1 fromModule).removeAccessAllocated then
            let ta := takeAlloc vm1
            if ta.1 then
              let vm2 := updateModule ta.2 fromModule
                (fun m => { m with removeAccessAllocated := true })
              allowReadReversePut vm2 fromModule t
            else (ErrCode.success, ta.2)
          else allowReadReversePut vm1 fromModule t
        else (ErrCode.hashtableOperationFailed, { vm with allocs := put1.2.2 })
      else (ErrCode.moduleWasntFound, vm)

/-- Modelled from the spec: `isAllowedReadAccessToModule` (defined
outside the material under src/) — `canRead(askModule, srcModule)` is
true when the modules are identical, or `askModule` is loose and
`srcModule` unnamed, or `askModule` is in `srcModule`'s
`readAccessHashTable`; the error code is `SUCCESS` when both arguments
resolve to module records. -/
def isAllowedReadAccessToModule (vm : JavaVM) (askModule srcModule : ModuleId) :
    Bool × ErrCode :=
  let canRead :=
    askModule == srcModule
    || ((getModule vm askModule).isLoose && (getModule vm srcModule).moduleName.isNone)
    || (getModule vm srcModule).readAccess.contains askModule
  let rc :=
    if (lookupAssoc askModule vm.modulePool).isSome
        && (lookupAssoc srcModule vm.modulePool).isSome
    then ErrCode.success else ErrCode.generalFailure
  (canRead, rc)

/-! ### Module creation and `JVM_DefineModule` -/

/-- Modelled from the spec: `freeJ9Module` (defined outside the material
under src/) releases a module record (and its tables) back to the
modularity pool. -/
def freeJ9Module (vm : JavaVM) (m : ModuleId) : JavaVM :=
  { vm with modulePool := vm.modulePool.eraseP (fun e => e.1 == m) }

/-- The record-acquisition step of the static `createModule`.  After
`java.base` exists the record comes from `pool_newElement` (one oracle
event, fresh id); before that the preallocated `vm->javaBaseModule`
record is reused for a named module (and marked loose), or
`vm->unamedModuleForSystemLoader` for the unnamed one. -/
def createModuleAlloc (vm : JavaVM) (moduleName : Option String) :
    Option ModuleId × JavaVM :=
  if vm.javaBaseCreated then
    let t := takeAlloc vm
    if t.1 then
      let id := t.2.nextModuleId
      (some id, setModule { t.2 with nextModuleId := id + 1 } id J9Module.blank)
    else (none, t.2)
  else
    if moduleName.isNone then (some vm.unamedModuleForSystemLoader, vm)
    else
      (some vm.javaBaseModule,
        updateModule vm vm.javaBaseModule (fun m => { m with isLoose := true }))

/-- Embedding of the static `createModule`, continued: bind the name,
create the fresh `readAccessHashTable` (a second oracle event), and set
the class loader; on table-creation failure the record is freed and a
native OOM is pending. -/
def createModule (vm : JavaVM) (classLoader : LoaderId) (moduleName : Option String) :
    Option ModuleId × JavaVM :=
  let alloc := createModuleAlloc vm moduleName
  match alloc.1 with
  | none => (none, setException alloc.2 ExceptionKind.outOfMemory)
  | some id =>
    let vm2 := updateModule alloc.2 id (fun m => { m with moduleName := moduleName })
    let t2 := takeAlloc vm2
    if t2.1 then
      (some id, updateModule t2.2 id
        (fun m => { m with readAccess := [], classLoader := classLoader }))
    else (none, setException (freeJ9Module t2.2 id) ExceptionKind.outOfMemory)

/-- Embedding of the static stub `isModuleJavaBase` (the source returns
constant `FALSE`, with a todo to compare against "java.base"). -/
def isModuleJavaBase (_moduleName : Option String) : Bool := false

/-- Embedding of the static stub `isModuleNameGood` (the source returns
constant `TRUE`, with a todo to implement validation). -/
def isModuleNameGood (_moduleName : Option String) : Bool := true

/-- Embedding of the static `isModuleNameValid`. -/
def isModuleNameValid (moduleName : Option String) : Bool :=
  match moduleName with
  | none => false
  | some _ => if ¬ isModuleJavaBase moduleName then isModuleNameGood moduleName else true

/-- The `packages[pkgIndex]` check of `JVM_DefineModule`: a package name
rooted in the `java` hierarchy (`strncmp(p, "java", 4) == 0` with the
next character being the terminator, a dot, or a slash). -/
def isJavaRootedPackage (s : String) : Bool :=
  s == "java" || "java.".data.isPrefixOf s.data || "java/".data.isPrefixOf s.data

/-- Embedding of the static `throwExceptionHelper`: every modularity
error code is surfaced as a `java.lang.IllegalArgumentException`. -/
def throwExceptionHelper (vm : JavaVM) (errCode : ErrCode) : JavaVM :=
  if errCode = ErrCode.success then vm
  else setException vm ExceptionKind.illegalArgument

/-- The package-array conversion loop of `JVM_DefineModule`
(JAVA_SPEC_VERSION >= 15): each non-null string costs one allocation
event (failure pends a native OOM), a null entry pends an NPE. -/
def copyPackageStrings (vm : JavaVM) : List (Option String) →
    Except ExceptionKind (List String) × JavaVM
  | [] => (Except.ok [], vm)
  | none :: _ => (Except.error ExceptionKind.nullPointer, vm)
  | some s :: rest =>
    let t := takeAlloc vm
    if t.1 then
      let r := copyPackageStrings t.2 rest
      match r.1 with
      | Except.ok l => (Except.ok (s :: l), r.2)
      | Except.error e => (Except.error e, r.2)
    else (Except.error ExceptionKind.outOfMemory, t.2)

/-- The bootstrap branch of `JVM_DefineModule`'s success path: assert the
first defined module is `java.base`, walk every class already loaded by
the boot (and anonymous) loader rewriting its module association to the
new module object (the class records are outside the embedded state),
and raise `J9_RUNTIME_JAVA_BASE_MODULE_CREATED`. -/
def defineModuleBootstrap (vm : JavaVM) (nameUTF : String) : JavaVM :=
  let vm1 := assertSC (nameUTF == "java.base") vm
  { vm1 with javaBaseCreated := true }

/-- The registration tail of `JVM_DefineModule`: `createModule`,
`addModuleDefinition`, the `isOpen` store, and the success path's
patch-path (boot loader, after `java.base`) or bootstrap (before
`java.base`) work, with the shared `!success` cleanup (exception via
`throwExceptionHelper`, `freeJ9Module`, and the pending-exception
assert). -/
def defineModuleRegister (vm : JavaVM) (modObj : ModuleObject) (classLoader : LoaderId)
    (isOpen : Bool) (version : Option String) (packages : List String) : JavaVM :=
  let cm := createModule vm classLoader modObj.name
  match cm.1 with
  | none => cm.2
  | some j9mod =>
    let ra := addModuleDefinition cm.2 j9mod (some packages) version
    let vmo := updateModule ra.2 j9mod (fun m => { m with isOpen := isOpen })
    if ra.1 = ErrCode.success then
      if vmo.javaBaseCreated then
        if classLoader = vmo.systemClassLoader then
          let tp := takeAlloc vmo
          if tp.1 then tp.2
          else
            let vmx := setException tp.2 ExceptionKind.outOfMemory
            let vmy := freeJ9Module vmx j9mod
            assertSC vmy.pendingException.isSome vmy
        else vmo
      else defineModuleBootstrap vmo (modObj.name.getD "")
    else
      let vme := throwExceptionHelper vmo ra.1
      let vmf := freeJ9Module vme j9mod
      assertSC vmf.pendingException.isSome vmf

/-- The argument checks of `JVM_DefineModule` once the module object and
the converted package names are in hand: the `java.*` package
restriction, the unnamed/invalid-name checks, the `nameUTF` conversion
(one oracle event), and the `java.base`-by-non-boot-loader rejection. -/
def defineModuleInner (vm : JavaVM) (modObj : ModuleObject) (isOpen : Bool)
    (version : Option String) (packages : List String) : JavaVM :=
  let classLoader := (modObj.loader).getD vm.systemClassLoader
  if (classLoader ≠ vm.systemClassLoader ∧ classLoader ≠ vm.extensionClassLoader)
      ∧ packages.any isJavaRootedPackage then
    setException vm ExceptionKind.illegalArgument
  else if modObj.name.isNone then
    setException vm ExceptionKind.illegalArgument
  else if ¬ isModuleNameValid modObj.name then
    setException vm ExceptionKind.illegalArgument
  else
    let tname := takeAlloc vm
    if ¬ tname.1 then setException tname.2 ExceptionKind.outOfMemory
    else if classLoader ≠ tname.2.systemClassLoader ∧ (modObj.name.getD "" == "java.base") then
      setException tname.2 ExceptionKind.layerInstantiation
    else defineModuleRegister tname.2 modObj classLoader isOpen version packages

/-- The state effect of `JVM_DefineModule` (JAVA_SPEC_VERSION >= 15
variant): null checks and package-array conversion, then the argument
checks and registration above.  All exits flow to the single `done:`
label of the source. -/
def JVM_DefineModuleState (vm : JavaVM) (module : Option ModuleObject) (isOpen : Bool)
    (version : Option String) (packageArray : Option (List (Option String))) : JavaVM :=
  match packageArray with
  | none => setException vm ExceptionKind.nullPointer
  | some arr =>
    let tbuf := takeAlloc vm
    if ¬ tbuf.1 then setException tbuf.2 ExceptionKind.outOfMemory
    else
      let conv := copyPackageStrings tbuf.2 arr
      match conv.1 with
      | Except.error e => setException conv.2 e
      | Except.ok packages =>
        match module with
        | none => setException conv.2 ExceptionKind.nullPointer
        | some modObj => defineModuleInner conv.2 modObj isOpen version packages

/-- Embedding of `JVM_DefineModule`: the function has a single exit that
returns its `module` argument unchanged, after the state effect above. -/
def JVM_DefineModule (vm : JavaVM) (module : Option ModuleObject) (isOpen : Bool)
    (version : Option String) (packageArray : Option (List (Option String))) :
    Option ModuleObject × JavaVM :=
  (module, JVM_DefineModuleState vm module isOpen version packageArray)

/-! ### The remaining JVM_ entry points -/

/-- Modelled from the spec: `isModuleUnnamed` (defined outside the
material under src/) — the module object carries no name. -/
def isModuleUnnamed (vm : JavaVM) (m : ModuleId) : Bool :=
  (getModule vm m).moduleName.isNone

/-- Embedding of `JVM_AddModuleExports` (JAVA_SPEC_VERSION >= 15): null
package → NPE; package-string copy costs one allocation event; null
toModule → NPE; unnamed target redirects to the all-unnamed export. -/
def JVM_AddModuleExports (vm : JavaVM) (fromModule : ModuleId) (packageObj : Option String)
    (toModule : Option ModuleId) : JavaVM :=
  match packageObj with
  | none => setException vm ExceptionKind.nullPointer
  | some package =>
    let t := takeAlloc vm
    if ¬ t.1 then setException t.2 ExceptionKind.outOfMemory
    else
      match toModule with
      | none => setException t.2 ExceptionKind.nullPointer
      | some toM =>
        let r :=
          if isModuleUnnamed t.2 toM then exportPackageToAllUnamed t.2 fromModule package
          else exportPackageToModule t.2 fromModule package toM
        throwExceptionHelper r.2 r.1

/-- Embedding of `JVM_AddModuleExportsToAll` (JAVA_SPEC_VERSION >= 15). -/
def JVM_AddModuleExportsToAll (vm : JavaVM) (fromModule : ModuleId)
    (packageObj : Option String) : JavaVM :=
  match packageObj with
  | none => setException vm ExceptionKind.nullPointer
  | some package =>
    let t := takeAlloc vm
    if ¬ t.1 then setException t.2 ExceptionKind.outOfMemory
    else
      let r := exportPackageToAll t.2 fromModule package
      throwExceptionHelper r.2 r.1

/-- Embedding of `JVM_AddReadsModule`: nothing happens when the two
handles are equal; the inner check repeats the comparison on the
unwrapped records (which coincides in this embedding). -/
def JVM_AddReadsModule (vm : JavaVM) (fromModule : ModuleId)
    (toModule : Option ModuleId) : JavaVM :=
  if some fromModule ≠ toModule then
    if toModule ≠ some fromModule then
      let r := allowReadAccessToModule vm fromModule toModule
      throwExceptionHelper r.2 r.1
    else vm
  else vm

/-- Embedding of `JVM_CanReadModule`: equal handles answer true with no
lookup at all; otherwise the query is delegated to
`isAllowedReadAccessToModule` and a non-`SUCCESS` code is surfaced as an
exception. -/
def JVM_CanReadModule (vm : JavaVM) (askModule srcModule : ModuleId) : Bool × JavaVM :=
  if askModule = srcModule then (true, vm)
  else
    let r := isAllowedReadAccessToModule vm askModule srcModule
    (r.1, throwExceptionHelper vm r.2)

/-- The operations of the module subsystem, at the JVM_ entry-point
level. -/
inductive ModOp where
  | defineModule (module : Option ModuleObject) (isOpen : Bool) (version : Option String)
      (packageArray : Option (List (Option String)))
  | addModuleExports (fromModule : ModuleId) (package : Option String)
      (toModule : Option ModuleId)
  | addModuleExportsToAll (fromModule : ModuleId) (package : Option String)
  | addReadsModule (fromModule : ModuleId) (toModule : Option ModuleId)
  | canReadModule (askModule srcModule : ModuleId)

/-- State transition of one subsystem operation. -/
def stepOp (op : ModOp) (vm : JavaVM) : JavaVM :=
  match op with
  | ModOp.defineModule m io v pa => (JVM_DefineModule vm m io v pa).2
  | ModOp.addModuleExports f p t => JVM_AddModuleExports vm f p t
  | ModOp.addModuleExportsToAll f p => JVM_AddModuleExportsToAll vm f p
  | ModOp.addReadsModule f t => JVM_AddReadsModule vm f t
  | ModOp.canReadModule a s => (JVM_CanReadModule vm a s).2

/-! ### Field-preservation lemmas for the state primitives -/

@[simp] theorem setException_loaders (vm : JavaVM) (e : ExceptionKind) :
    (setException vm e).loaders = vm.loaders := rfl

@[simp] theorem setException_modulePool (vm : JavaVM) (e : ExceptionKind) :
    (setException vm e).modulePool = vm.modulePool := rfl

@[simp] theorem setException_pendingException (vm : JavaVM) (e : ExceptionKind) :
    (setException vm e).pendingException = some e := rfl

@[simp] theorem setException_allocs (vm : JavaVM) (e : ExceptionKind) :
    (setException vm e).allocs = vm.allocs := rfl

@[simp] theorem setException_systemClassLoader (vm : JavaVM) (e : ExceptionKind) :
    (setException vm e).systemClassLoader = vm.systemClassLoader := rfl

@[simp] theorem setException_extensionClassLoader (vm : JavaVM) (e : ExceptionKind) :
    (setException vm e).extensionClassLoader = vm.extensionClassLoader := rfl

theorem takeAlloc_state (vm : JavaVM) : ∃ al, (takeAlloc vm).2 = { vm with allocs := al } := by
  simp only [takeAlloc]
  cases vm.allocs with
  | nil => exact ⟨vm.allocs, rfl⟩
  | cons a rest => exact ⟨rest, rfl⟩

@[simp] theorem takeAlloc_loaders (vm : JavaVM) : (takeAlloc vm).2.loaders = vm.loaders := by
  obtain ⟨al, h⟩ := takeAlloc_state vm
  rw [h]

@[simp] theorem takeAlloc_modulePool (vm : JavaVM) :
    (takeAlloc vm).2.modulePool = vm.modulePool := by
  obtain ⟨al, h⟩ := takeAlloc_state vm
  rw [h]

@[simp] theorem takeAlloc_pendingException (vm : JavaVM) :
    (takeAlloc vm).2.pendingException = vm.pendingException := by
  obtain ⟨al, h⟩ := takeAlloc_state vm
  rw [h]

@[simp] theorem takeAlloc_systemClassLoader (vm : JavaVM) :
    (takeAlloc vm).2.systemClassLoader = vm.systemClassLoader := by
  obtain ⟨al, h⟩ := takeAlloc_state vm
  rw [h]

@[simp] theorem takeAlloc_extensionClassLoader (vm : JavaVM) :
    (takeAlloc vm).2.extensionClassLoader = vm.extensionClassLoader := by
  obtain ⟨al, h⟩ := takeAlloc_state vm
  rw [h]

@[simp] theorem takeAlloc_assertionFailed (vm : JavaVM) :
    (takeAlloc vm).2.assertionFailed = vm.assertionFailed := by
  obtain ⟨al, h⟩ := takeAlloc_state vm
  rw [h]

@[simp] theorem takeAlloc_nil (vm : JavaVM) (h : vm.allocs = []) : takeAlloc vm = (true, vm) := by
  simp [takeAlloc, h]

@[simp] theorem setLoader_modulePool (vm : JavaVM) (l : LoaderId) (c : J9ClassLoader) :
    (setLoader vm l c).modulePool = vm.modulePool := rfl

@[simp] theorem setLoader_allocs (vm : JavaVM) (l : LoaderId) (c : J9ClassLoader) :
    (setLoader vm l c).allocs = vm.allocs := rfl

@[simp] theorem setLoader_pendingException (vm : JavaVM) (l : LoaderId) (c : J9ClassLoader) :
    (setLoader vm l c).pendingException = vm.pendingException := rfl

@[simp] theorem setLoader_assertionFailed (vm : JavaVM) (l : LoaderId) (c : J9ClassLoader) :
    (setLoader vm l c).assertionFailed = vm.assertionFailed := rfl

@[simp] theorem setModule_loaders (vm : JavaVM) (m : ModuleId) (rec : J9Module) :
    (setModule vm m rec).loaders = vm.loaders := rfl

@[simp] theorem setModule_allocs (vm : JavaVM) (m : ModuleId) (rec : J9Module) :
    (setModule vm m rec).allocs = vm.allocs := rfl

@[simp] theorem setModule_pendingException (vm : JavaVM) (m : ModuleId) (rec : J9Module) :
    (setModule vm m rec).pendingException = vm.pendingException := rfl

@[simp] theorem setModule_assertionFailed (vm : JavaVM) (m : ModuleId) (rec : J9Module) :
    (setModule vm m rec).assertionFailed = vm.assertionFailed := rfl

@[simp] theorem updateModule_loaders (vm : JavaVM) (m : ModuleId) (f : J9Module → J9Module) :
    (updateModule vm m f).loaders = vm.loaders := rfl

@[simp] theorem updateModule_allocs (vm : JavaVM) (m : ModuleId) (f : J9Module → J9Module) :
    (updateModule vm m f).allocs = vm.allocs := rfl

@[simp] theorem updateModule_pendingException (vm : JavaVM) (m : ModuleId)
    (f : J9Module → J9Module) :
    (updateModule vm m f).pendingException = vm.pendingException := rfl

@[simp] theorem assertSC_loaders (b : Bool) (vm : JavaVM) :
    (assertSC b vm).loaders = vm.loaders := by
  simp only [assertSC]
  split <;> rfl

@[simp] theorem assertSC_modulePool (b : Bool) (vm : JavaVM) :
    (assertSC b vm).modulePool = vm.modulePool := by
  simp only [assertSC]
  split <;> rfl

@[simp] theorem assertSC_pendingException (b : Bool) (vm : JavaVM) :
    (assertSC b vm).pendingException = vm.pendingException := by
  simp only [assertSC]
  split <;> rfl

@[simp] theorem assertSC_allocs (b : Bool) (vm : JavaVM) :
    (assertSC b vm).allocs = vm.allocs := by
  simp only [assertSC]
  split <;> rfl

@[simp] theorem assertSC_true (vm : JavaVM) : assertSC true vm = vm := rfl

@[simp] theorem freeJ9Module_loaders (vm : JavaVM) (m : ModuleId) :
    (freeJ9Module vm m).loaders = vm.loaders := rfl

@[simp] theorem freeJ9Module_javaBaseCreated (vm : JavaVM) (m : ModuleId) :
    (freeJ9Module vm m).javaBaseCreated = vm.javaBaseCreated := rfl

@[simp] theorem freeJ9Module_pendingException (vm : JavaVM) (m : ModuleId) :
    (freeJ9Module vm m).pendingException = vm.pendingException := rfl

@[simp] theorem freeJ9Module_assertionFailed (vm : JavaVM) (m : ModuleId) :
    (freeJ9Module vm m).assertionFailed = vm.assertionFailed := rfl

@[simp] theorem throwExceptionHelper_javaBaseCreated (vm : JavaVM) (e : ErrCode) :
    (throwExceptionHelper vm e).javaBaseCreated = vm.javaBaseCreated := by
  simp only [throwExceptionHelper]
  split <;> simp

@[simp] theorem throwExceptionHelper_loaders (vm : JavaVM) (e : ErrCode) :
    (throwExceptionHelper vm e).loaders = vm.loaders := by
  simp only [throwExceptionHelper]
  split <;> simp

@[simp] theorem throwExceptionHelper_modulePool (vm : JavaVM) (e : ErrCode) :
    (throwExceptionHelper vm e).modulePool = vm.modulePool := by
  simp only [throwExceptionHelper]
  split <;> simp

@[simp] theorem throwExceptionHelper_assertionFailed (vm : JavaVM) (e : ErrCode) :
    (throwExceptionHelper vm e).assertionFailed = vm.assertionFailed := by
  simp only [throwExceptionHelper]
  split <;> rfl

/-! ### The `javaBaseCreated` flag is written by no helper -/

@[simp] theorem createPackage_javaBaseCreated (vm : JavaVM) (f : ModuleId) (p : String) :
    (createPackage vm f p).2.javaBaseCreated = vm.javaBaseCreated := by
  simp only [createPackage]
  split <;> simp

@[simp] theorem packageTableAtPut_javaBaseCreated (vm : JavaVM) (l : LoaderId)
    (pkg : J9Package) (c : Bool) :
    (packageTableAtPut vm l pkg c).2.javaBaseCreated = vm.javaBaseCreated := rfl

@[simp] theorem moduleTableAtPut_javaBaseCreated (vm : JavaVM) (l : LoaderId)
    (m : ModuleId) (c : Bool) :
    (moduleTableAtPut vm l m c).2.javaBaseCreated = vm.javaBaseCreated := rfl

@[simp] theorem addPackageDefinition_javaBaseCreated (vm : JavaVM) (f : ModuleId) (p : String) :
    (addPackageDefinition vm f p).2.javaBaseCreated = vm.javaBaseCreated := by
  simp only [addPackageDefinition]
  split
  · simp_all
  · simp

@[simp] theorem hashPackageTableDelete_javaBaseCreated (vm : JavaVM) (l : LoaderId)
    (p : String) : (hashPackageTableDelete vm l p).2.javaBaseCreated = vm.javaBaseCreated := by
  simp only [hashPackageTableDelete]
  split <;> simp

@[simp] theorem removePackageDefinition_javaBaseCreated (vm : JavaVM) (f : ModuleId)
    (p : String) : (removePackageDefinition vm f p).2.javaBaseCreated = vm.javaBaseCreated := by
  simp [removePackageDefinition]

@[simp] theorem removeMulPackageDefinitions_javaBaseCreated (f : ModuleId) (ps : List String)
    (i : Nat) (vm : JavaVM) :
    (removeMulPackageDefinitions f ps i vm).javaBaseCreated = vm.javaBaseCreated := by
  induction i generalizing vm with
  | zero => simp [removeMulPackageDefinitions, removePackageStep]
  | succ n ih => simp [removeMulPackageDefinitions, removePackageStep, ih]

@[simp] theorem addMulPackageLoop_javaBaseCreated (f : ModuleId) (ps : List String)
    (vm : JavaVM) :
    (addMulPackageLoop f ps vm).2.2.javaBaseCreated = vm.javaBaseCreated := by
  induction ps generalizing vm with
  | nil => simp [addMulPackageLoop]
  | cons p rest ih =>
    simp only [addMulPackageLoop]
    split
    · simp [ih]
    · simp

@[simp] theorem addMulPackageDefinitions_javaBaseCreated (vm : JavaVM) (f : ModuleId)
    (ps : Option (List String)) :
    (addMulPackageDefinitions vm f ps).2.javaBaseCreated = vm.javaBaseCreated := by
  simp only [addMulPackageDefinitions]
  split
  · rfl
  · split
    · rfl
    · split
      · split <;> simp
      · simp

@[simp] theorem addModuleDefinition_javaBaseCreated (vm : JavaVM) (f : ModuleId)
    (ps : Option (List String)) (v : Option String) :
    (addModuleDefinition vm f ps v).2.javaBaseCreated = vm.javaBaseCreated := by
  simp only [addModuleDefinition]
  split
  · rfl
  · split
    · rfl
    · split
      · split
        · split <;> split <;> simp
        · split <;> simp
      · simp

@[simp] theorem updateFirstPackage_javaBaseCreated (vm : JavaVM) (l : LoaderId) (n : String)
    (f : J9Package → J9Package) :
    (updateFirstPackage vm l n f).javaBaseCreated = vm.javaBaseCreated := rfl

@[simp] theorem exportPackageToAll_javaBaseCreated (vm : JavaVM) (f : ModuleId) (p : String) :
    (exportPackageToAll vm f p).2.javaBaseCreated = vm.javaBaseCreated := by
  simp only [exportPackageToAll]
  split <;> simp

@[simp] theorem exportPackageToAllUnamed_javaBaseCreated (vm : JavaVM) (f : ModuleId)
    (p : String) :
    (exportPackageToAllUnamed vm f p).2.javaBaseCreated = vm.javaBaseCreated := by
  simp only [exportPackageToAllUnamed]
  split <;> simp

@[simp] theorem exportReversePut_javaBaseCreated (vm : JavaVM) (l : LoaderId) (n : String)
    (t : ModuleId) : (exportReversePut vm l n t).2.javaBaseCreated = vm.javaBaseCreated := by
  simp only [exportReversePut]
  split <;> simp

@[simp] theorem exportReverseSegment_javaBaseCreated (vm : JavaVM) (l : LoaderId)
    (p : String) (t : ModuleId) :
    (exportReverseSegment vm l p t).2.javaBaseCreated = vm.javaBaseCreated := by
  simp only [exportReverseSegment]
  split
  · split <;> simp
  · simp

@[simp] theorem exportPackageToModule_javaBaseCreated (vm : JavaVM) (f : ModuleId) (p : String)
    (t : ModuleId) : (exportPackageToModule vm f p t).2.javaBaseCreated = vm.javaBaseCreated := by
  simp only [exportPackageToModule]
  split
  · simp
  · split
    · split
      · simp
      · simp
    · simp

@[simp] theorem allowReadReversePut_javaBaseCreated (vm : JavaVM) (f t : ModuleId) :
    (allowReadReversePut vm f t).2.javaBaseCreated = vm.javaBaseCreated := by
  simp only [allowReadReversePut]
  split <;> simp

@[simp] theorem allowReadAccessToModule_javaBaseCreated (vm : JavaVM) (f : ModuleId)
    (t : Option ModuleId) :
    (allowReadAccessToModule vm f t).2.javaBaseCreated = vm.javaBaseCreated := by
  simp only [allowReadAccessToModule]
  split
  · rfl
  · split
    · simp
    · split
      · rfl
      · split
        · split
          · split
            · split <;> simp
            · simp
          · simp
        · simp

@[simp] theorem createModuleAlloc_javaBaseCreated (vm : JavaVM) (n : Option String) :
    (createModuleAlloc vm n).2.javaBaseCreated = vm.javaBaseCreated := by
  simp only [createModuleAlloc]
  split
  · split
    · simp [setModule]
    · simp
  · split
    · rfl
    · simp

@[simp] theorem createModule_javaBaseCreated (vm : JavaVM) (l : LoaderId)
    (n : Option String) : (createModule vm l n).2.javaBaseCreated = vm.javaBaseCreated := by
  simp only [createModule]
  split
  · simp
  · split
    · simp
    · simp

@[simp] theorem copyPackageStrings_javaBaseCreated (vm : JavaVM) (l : List (Option String)) :
    (copyPackageStrings vm l).2.javaBaseCreated = vm.javaBaseCreated := by
  induction l generalizing vm with
  | nil => rfl
  | cons x rest ih =>
    cases x with
    | none => rfl
    | some s =>
      simp only [copyPackageStrings]
      split
      · split <;> simp [ih]
      · simp

@[simp] theorem defineModuleBootstrap_javaBaseCreated (vm : JavaVM) (nameUTF : String) :
    (defineModuleBootstrap vm nameUTF).javaBaseCreated = true := rfl

theorem defineModuleBootstrap_assert (vm : JavaVM) (nameUTF : String)
    (h : (defineModuleBootstrap vm nameUTF).assertionFailed = false) :
    nameUTF = "java.base" := by
  by_cases hc : nameUTF = "java.base"
  · exact hc
  · exfalso
    simp only [defineModuleBootstrap, assertSC] at h
    rw [if_neg (by simpa using hc)] at h
    simp at h

theorem name_of_getD_javaBase (o : Option String) (h : o.getD "" = "java.base") :
    o = some "java.base" := by
  cases o <;> simp_all

/-- Branch analysis of `defineModuleRegister`'s effect on the
`javaBaseCreated` flag: every path leaves the flag unchanged except the
bootstrap success path, which raises it and asserts that the defined
module is `java.base`. -/
theorem defineModuleRegister_flag_cases (vm : JavaVM) (modObj : ModuleObject)
    (cl : LoaderId) (io : Bool) (ver : Option String) (pkgs : List String) :
    (defineModuleRegister vm modObj cl io ver pkgs).javaBaseCreated = vm.javaBaseCreated ∨
    (vm.javaBaseCreated = false ∧
      (defineModuleRegister vm modObj cl io ver pkgs).javaBaseCreated = true ∧
      ((defineModuleRegister vm modObj cl io ver pkgs).assertionFailed = false →
        modObj.name = some "java.base")) := by
  by_cases hb : vm.javaBaseCreated = true
  · left
    simp only [defineModuleRegister]
    repeat' split
    all_goals simp [hb]
  · simp only [Bool.not_eq_true] at hb
    simp only [defineModuleRegister]
    repeat' split
    all_goals try (left; simp; done)
    all_goals exact Or.inr ⟨hb, by simp,
      fun h => name_of_getD_javaBase _ (defineModuleBootstrap_assert _ _ h)⟩

theorem defineModuleInner_flag_cases (vm : JavaVM) (modObj : ModuleObject)
    (io : Bool) (ver : Option String) (pkgs : List String) :
    (defineModuleInner vm modObj io ver pkgs).javaBaseCreated = vm.javaBaseCreated ∨
    (vm.javaBaseCreated = false ∧
      (defineModuleInner vm modObj io ver pkgs).javaBaseCreated = true ∧
      ((defineModuleInner vm modObj io ver pkgs).assertionFailed = false →
        modObj.name = some "java.base")) := by
  simp only [defineModuleInner]
  repeat' split
  all_goals try (left; simp; done)
  all_goals
    rcases defineModuleRegister_flag_cases (takeAlloc vm).2 modObj
      ((modObj.loader).getD vm.systemClassLoader) io ver pkgs with h | ⟨h1, h2, h3⟩
  · exact Or.inl (by rw [h]; simp)
  · exact Or.inr ⟨by simpa using h1, h2, h3⟩

/-- Branch analysis of `JVM_DefineModuleState`'s effect on the
`javaBaseCreated` flag. -/
theorem JVM_DefineModuleState_flag_cases (vm : JavaVM) (module : Option ModuleObject)
    (io : Bool) (ver : Option String) (pa : Option (List (Option String))) :
    (JVM_DefineModuleState vm module io ver pa).javaBaseCreated = vm.javaBaseCreated ∨
    (vm.javaBaseCreated = false ∧
      (JVM_DefineModuleState vm module io ver pa).javaBaseCreated = true ∧
      ∃ obj, module = some obj ∧
        ((JVM_DefineModuleState vm module io ver pa).assertionFailed = false →
          obj.name = some "java.base")) := by
  cases pa with
  | none => exact Or.inl (by simp [JVM_DefineModuleState])
  | some arr =>
    by_cases ht : (takeAlloc vm).1 = true
    · cases hconv : (copyPackageStrings (takeAlloc vm).2 arr).1 with
      | error e => exact Or.inl (by simp [JVM_DefineModuleState, ht, hconv])
      | ok packages =>
        cases module with
        | none => exact Or.inl (by simp [JVM_DefineModuleState, ht, hconv])
        | some modObj =>
          have hred : JVM_DefineModuleState vm (some modObj) io ver (some arr) =
              defineModuleInner (copyPackageStrings (takeAlloc vm).2 arr).2 modObj io ver
                packages := by
            simp [JVM_DefineModuleState, ht, hconv]
          rw [hred]
          rcases defineModuleInner_flag_cases (copyPackageStrings (takeAlloc vm).2 arr).2
            modObj io ver packages with h | ⟨h1, h2, h3⟩
          · exact Or.inl (by rw [h]; simp)
          · exact Or.inr ⟨by simpa using h1, h2, modObj, rfl, h3⟩
    · exact Or.inl (by simp [JVM_DefineModuleState, ht])

@[simp] theorem JVM_AddModuleExports_javaBaseCreated (vm : JavaVM) (f : ModuleId)
    (p : Option String) (t : Option ModuleId) :
    (JVM_AddModuleExports vm f p t).javaBaseCreated = vm.javaBaseCreated := by
  simp only [JVM_AddModuleExports]
  repeat' split
  all_goals simp

@[simp] theorem JVM_AddModuleExportsToAll_javaBaseCreated (vm : JavaVM) (f : ModuleId)
    (p : Option String) :
    (JVM_AddModuleExportsToAll vm f p).javaBaseCreated = vm.javaBaseCreated := by
  simp only [JVM_AddModuleExportsToAll]
  repeat' split
  all_goals simp

@[simp] theorem JVM_AddReadsModule_javaBaseCreated (vm : JavaVM) (f : ModuleId)
    (t : Option ModuleId) :
    (JVM_AddReadsModule vm f t).javaBaseCreated = vm.javaBaseCreated := by
  simp only [JVM_AddReadsModule]
  repeat' split
  all_goals simp

@[simp] theorem JVM_CanReadModule_javaBaseCreated (vm : JavaVM) (a s : ModuleId) :
    (JVM_CanReadModule vm a s).2.javaBaseCreated = vm.javaBaseCreated := by
  simp only [JVM_CanReadModule]
  repeat' split
  all_goals simp

/-! ### Pool preservation and helper lemmas for the rollback proofs -/

@[simp] theorem getModule_setLoader (vm : JavaVM) (l : LoaderId) (c : J9ClassLoader)
    (m : ModuleId) : getModule (setLoader vm l c) m = getModule vm m := rfl

@[simp] theorem getLoader_setModule (vm : JavaVM) (m : ModuleId) (r : J9Module)
    (l : LoaderId) : getLoader (setModule vm m r) l = getLoader vm l := rfl

theorem setAllocs_eq_self (vm : JavaVM) (al : List Bool) (h : vm.allocs = al) :
    ({ vm with allocs := al } : JavaVM) = vm := by
  subst h
  rfl

theorem setLoader_getLoader_self (vm : JavaVM) (l : LoaderId)
    (h : (lookupAssoc l vm.loaders).isSome) : setLoader vm l (getLoader vm l) = vm := by
  obtain ⟨c, hc⟩ := Option.isSome_iff_exists.mp h
  simp [setLoader, getLoader, hc, setAssoc_lookupAssoc_self _ _ _ hc]

theorem lookupAssoc_isSome_of_table_nonempty (vm : JavaVM) (l : LoaderId)
    (h : (getLoader vm l).packageHashTable ≠ []) :
    (lookupAssoc l vm.loaders).isSome := by
  cases hlk : lookupAssoc l vm.loaders with
  | none => exact absurd (by simp [getLoader, hlk, J9ClassLoader.empty]) h
  | some c => simp

@[simp] theorem createPackage_modulePool (vm : JavaVM) (f : ModuleId) (p : String) :
    (createPackage vm f p).2.modulePool = vm.modulePool := by
  simp only [createPackage]
  split <;> simp

@[simp] theorem packageTableAtPut_modulePool (vm : JavaVM) (l : LoaderId) (pkg : J9Package)
    (c : Bool) : (packageTableAtPut vm l pkg c).2.modulePool = vm.modulePool := rfl

@[simp] theorem addPackageDefinition_modulePool (vm : JavaVM) (f : ModuleId) (p : String) :
    (addPackageDefinition vm f p).2.modulePool = vm.modulePool := by
  simp only [addPackageDefinition]
  split
  · simp_all
  · simp

@[simp] theorem hashPackageTableDelete_modulePool (vm : JavaVM) (l : LoaderId) (p : String) :
    (hashPackageTableDelete vm l p).2.modulePool = vm.modulePool := by
  simp only [hashPackageTableDelete]
  split <;> simp

@[simp] theorem removePackageDefinition_modulePool (vm : JavaVM) (f : ModuleId) (p : String) :
    (removePackageDefinition vm f p).2.modulePool = vm.modulePool := by
  simp [removePackageDefinition]

@[simp] theorem removeMulPackageDefinitions_modulePool (f : ModuleId) (ps : List String)
    (i : Nat) (vm : JavaVM) :
    (removeMulPackageDefinitions f ps i vm).modulePool = vm.modulePool := by
  induction i generalizing vm with
  | zero => simp [removeMulPackageDefinitions, removePackageStep]
  | succ n ih => simp [removeMulPackageDefinitions, removePackageStep, ih]

@[simp] theorem addMulPackageLoop_modulePool (f : ModuleId) (ps : List String) (vm : JavaVM) :
    (addMulPackageLoop f ps vm).2.2.modulePool = vm.modulePool := by
  induction ps generalizing vm with
  | nil => simp [addMulPackageLoop]
  | cons p rest ih =>
    simp only [addMulPackageLoop]
    split
    · simp [ih]
    · simp

@[simp] theorem addMulPackageDefinitions_modulePool (vm : JavaVM) (f : ModuleId)
    (ps : Option (List String)) :
    (addMulPackageDefinitions vm f ps).2.modulePool = vm.modulePool := by
  simp only [addMulPackageDefinitions]
  split
  · rfl
  · split
    · rfl
    · split
      · split <;> simp
      · simp

theorem getModule_of_pool_eq (vm vm' : JavaVM) (h : vm'.modulePool = vm.modulePool)
    (m : ModuleId) : getModule vm' m = getModule vm m := by
  simp [getModule, h]

/-- The package record built by `createPackage` (all allocations
granted). -/
def freshPackage (vm : JavaVM) (f : ModuleId) (p : String) : J9Package :=
  { packageName := p, classLoader := (getModule vm f).classLoader, module := f,
    exportToAll := false, exportToAllUnnamed := false, exportsTo := [] }

theorem createPackage_nil (vm : JavaVM) (f : ModuleId) (p : String) (h : vm.allocs = []) :
    createPackage vm f p = (some (freshPackage vm f p), vm) := by
  simp [createPackage, takeAlloc_nil vm h, freshPackage]

theorem addPackageDefinition_nil_fail (vm : JavaVM) (f : ModuleId) (p : String)
    (h : vm.allocs = []) (hfail : (addPackageDefinition vm f p).1 = false) :
    (addPackageDefinition vm f p).2 = vm ∧
    isPackageDefined vm (getModule vm f).classLoader p = true := by
  have hcp := createPackage_nil vm f p h
  have hpred : (fun x => packageKeyEq x (freshPackage vm f p)) =
      (fun q : J9Package => q.packageName == p) := by
    funext x
    simp [packageKeyEq, freshPackage]
  simp only [addPackageDefinition, hcp, packageTableAtPut, hashTableAtPut, h, hpred] at hfail ⊢
  cases hfind : ((getLoader vm (getModule vm f).classLoader).packageHashTable.find?
      (fun q : J9Package => q.packageName == p)) with
  | none => simp [hfind] at hfail
  | some q =>
    have hpres : (lookupAssoc ((getModule vm f).classLoader) vm.loaders).isSome := by
      apply lookupAssoc_isSome_of_table_nonempty
      intro hnil
      rw [hnil] at hfind
      simp [List.find?] at hfind
    obtain ⟨c, hcl⟩ := Option.isSome_iff_exists.mp hpres
    have hgl : getLoader vm (getModule vm f).classLoader = c := by
      simp [getLoader, hcl]
    obtain ⟨ct, cm, cll⟩ := c
    refine ⟨?_, by simp [isPackageDefined, hashPackageTableAt, hfind]⟩
    simp only [hfind, hgl, if_true]
    rw [setAllocs_eq_self vm [] h]
    simp only [setLoader]
    rw [setAssoc_lookupAssoc_self _ _ _ hcl]

theorem addPackageDefinition_nil_success (vm : JavaVM) (f : ModuleId) (p : String)
    (h : vm.allocs = []) (hsucc : (addPackageDefinition vm f p).1 = true) :
    (addPackageDefinition vm f p).2 =
      setLoader vm (getModule vm f).classLoader
        { getLoader vm (getModule vm f).classLoader with
          packageHashTable := freshPackage vm f p ::
            (getLoader vm (getModule vm f).classLoader).packageHashTable } ∧
    isPackageDefined vm (getModule vm f).classLoader p = false := by
  have hcp := createPackage_nil vm f p h
  have hpred : (fun x => packageKeyEq x (freshPackage vm f p)) =
      (fun q : J9Package => q.packageName == p) := by
    funext x
    simp [packageKeyEq, freshPackage]
  simp only [addPackageDefinition, hcp, packageTableAtPut, hashTableAtPut, h, hpred] at hsucc ⊢
  cases hfind : ((getLoader vm (getModule vm f).classLoader).packageHashTable.find?
      (fun q : J9Package => q.packageName == p)) with
  | some q => simp [hfind] at hsucc
  | none =>
    refine ⟨?_, by simp [isPackageDefined, hashPackageTableAt, hfind]⟩
    simp only [hfind]
    rw [setAllocs_eq_self vm [] h]

theorem removePackageDefinition_pop (vm : JavaVM) (f : ModuleId) (p : String)
    (c : J9ClassLoader) (hc : lookupAssoc ((getModule vm f).classLoader) vm.loaders = some c)
    (pkg : J9Package) (hname : pkg.packageName = p) :
    removePackageDefinition
      (setLoader vm ((getModule vm f).classLoader)
        { c with packageHashTable := pkg :: c.packageHashTable }) f p = (true, vm) := by
  obtain ⟨ct, cm, cl⟩ := c
  simp only [removePackageDefinition, hashPackageTableDelete, getModule_setLoader]
  rw [getLoader_setLoader_self]
  simp only [List.any_cons, hname, beq_self_eq_true, Bool.true_or, if_pos]
  rw [List.eraseP_cons_of_pos (by simp [hname])]
  simp only [setLoader, setAssoc_setAssoc_self]
  rw [setAssoc_lookupAssoc_self _ _ _ hc]

theorem removePackageStep_pop (vm : JavaVM) (f : ModuleId) (p : String) (c : J9ClassLoader)
    (hc : lookupAssoc ((getModule vm f).classLoader) vm.loaders = some c)
    (pkg : J9Package) (hname : pkg.packageName = p) :
    removePackageStep f p
      (setLoader vm ((getModule vm f).classLoader)
        { c with packageHashTable := pkg :: c.packageHashTable }) = vm := by
  simp [removePackageStep, removePackageDefinition_pop vm f p c hc pkg hname]

theorem removeMul_cons_succ (f : ModuleId) (p : String) (rest : List String) (k : Nat) :
    ∀ vm : JavaVM,
      removeMulPackageDefinitions f (p :: rest) (k + 1) vm =
        removePackageStep f p (removeMulPackageDefinitions f rest k vm) := by
  induction k with
  | zero =>
    intro vm
    simp [removeMulPackageDefinitions]
  | succ n ih =>
    intro vm
    rw [show removeMulPackageDefinitions f (p :: rest) (n + 1 + 1) vm =
        removeMulPackageDefinitions f (p :: rest) (n + 1)
          (removePackageStep f ((p :: rest).getD (n + 1 + 1) "") vm) from rfl]
    rw [ih]
    rw [show removeMulPackageDefinitions f rest (n + 1) vm =
        removeMulPackageDefinitions f rest n
          (removePackageStep f (rest.getD (n + 1) "") vm) from rfl]
    simp

/-- In the allocation-failure-free regime, the insertion loop of
`addMulPackageDefinitions` either succeeds or stops with
`DUPLICATE_PACKAGE_IN_LIST`, and in the latter case the rollback that
`addMulPackageDefinitions` performs restores the state exactly. -/
theorem addMulPackageLoop_nil (f : ModuleId) :
    ∀ (ps : List String) (vm : JavaVM),
      vm.allocs = [] →
      (lookupAssoc ((getModule vm f).classLoader) vm.loaders).isSome →
      ((addMulPackageLoop f ps vm).1 = ErrCode.success ∨
        (addMulPackageLoop f ps vm).1 = ErrCode.duplicatePackageInList) ∧
      ((addMulPackageLoop f ps vm).1 ≠ ErrCode.success →
        ((addMulPackageLoop f ps vm).2.1 = 0 → (addMulPackageLoop f ps vm).2.2 = vm) ∧
        (∀ j, (addMulPackageLoop f ps vm).2.1 = j + 1 →
          removeMulPackageDefinitions f ps j (addMulPackageLoop f ps vm).2.2 = vm)) := by
  intro ps
  induction ps with
  | nil =>
    intro vm h hl
    simp [addMulPackageLoop]
  | cons p rest ih =>
    intro vm h hl
    cases hres : (addPackageDefinition vm f p).1 with
    | false =>
      obtain ⟨hstate, hdef⟩ := addPackageDefinition_nil_fail vm f p h hres
      have hloop : addMulPackageLoop f (p :: rest) vm =
          (ErrCode.duplicatePackageInList, 0, vm) := by
        simp [addMulPackageLoop, hres, hstate, hdef]
      rw [hloop]
      exact ⟨Or.inr rfl, fun _ => ⟨fun _ => rfl, fun j hj => by simp at hj⟩⟩
    | true =>
      obtain ⟨hstate, hndef⟩ := addPackageDefinition_nil_success vm f p h hres
      have h1 : (addPackageDefinition vm f p).2.allocs = [] := by
        rw [hstate]
        simpa using h
      have hl1 : (lookupAssoc ((getModule (addPackageDefinition vm f p).2 f).classLoader)
          (addPackageDefinition vm f p).2.loaders).isSome := by
        rw [hstate]
        simp [setLoader, getModule]
      obtain ⟨ihcodes, ihroll⟩ := ih (addPackageDefinition vm f p).2 h1 hl1
      obtain ⟨c, hc⟩ := Option.isSome_iff_exists.mp hl
      have hgl : getLoader vm ((getModule vm f).classLoader) = c := by
        simp [getLoader, hc]
      have hpop : removePackageStep f p (addPackageDefinition vm f p).2 = vm := by
        rw [hstate, hgl]
        exact removePackageStep_pop vm f p c hc _ rfl
      have hloop : addMulPackageLoop f (p :: rest) vm =
          ((addMulPackageLoop f rest (addPackageDefinition vm f p).2).1,
            (addMulPackageLoop f rest (addPackageDefinition vm f p).2).2.1 + 1,
            (addMulPackageLoop f rest (addPackageDefinition vm f p).2).2.2) := by
        simp [addMulPackageLoop, hres]
      rw [hloop]
      refine ⟨ihcodes, fun hne => ⟨fun h0 => by simp at h0, fun j hj => ?_⟩⟩
      obtain ⟨ihzero, ihsucc⟩ := ihroll hne
      have hj2 : (addMulPackageLoop f rest (addPackageDefinition vm f p).2).2.1 + 1 =
          j + 1 := hj
      have hj' : (addMulPackageLoop f rest (addPackageDefinition vm f p).2).2.1 = j := by
        omega
      cases hcase : j with
      | zero =>
        rw [hcase] at hj'
        have hst := ihzero hj'
        rw [show removeMulPackageDefinitions f (p :: rest) 0
            (addMulPackageLoop f rest (addPackageDefinition vm f p).2).2.2 =
            removePackageStep f p
              (addMulPackageLoop f rest (addPackageDefinition vm f p).2).2.2 from by
          simp [removeMulPackageDefinitions]]
        rw [hst, hpop]
      | succ n =>
        rw [hcase] at hj'
        have hst := ihsucc n hj'
        rw [removeMul_cons_succ f p rest n, hst, hpop]

/-- When some requested package name is already present in the loader's
package table, the insertion loop always stops with
`DUPLICATE_PACKAGE_IN_LIST` (collision on insert). -/
theorem addMulPackageLoop_fails (f : ModuleId) :
    ∀ (ps : List String) (vm : JavaVM),
      vm.allocs = [] →
      (∃ p ∈ ps, isPackageDefined vm ((getModule vm f).classLoader) p = true) →
      (addMulPackageLoop f ps vm).1 = ErrCode.duplicatePackageInList := by
  intro ps
  induction ps with
  | nil =>
    intro vm h hex
    simp at hex
  | cons p rest ih =>
    intro vm h hex
    cases hres : (addPackageDefinition vm f p).1 with
    | false =>
      obtain ⟨hstate, hdef⟩ := addPackageDefinition_nil_fail vm f p h hres
      simp [addMulPackageLoop, hres, hstate, hdef]
    | true =>
      obtain ⟨hstate, hndef⟩ := addPackageDefinition_nil_success vm f p h hres
      obtain ⟨q, hq, hqdef⟩ := hex
      have hqp : q ≠ p := by
        intro he
        rw [he, hndef] at hqdef
        cases hqdef
      have hq' : q ∈ rest := by
        rcases List.mem_cons.mp hq with he | hq'
        · exact absurd he hqp
        · exact hq'
      have h1 : (addPackageDefinition vm f p).2.allocs = [] := by
        rw [hstate]
        simpa using h
      have hdef1 : isPackageDefined (addPackageDefinition vm f p).2
          ((getModule (addPackageDefinition vm f p).2 f).classLoader) q = true := by
        rw [hstate]
        simp only [getModule_setLoader]
        simp only [isPackageDefined, hashPackageTableAt, getLoader_setLoader_self]
        rw [List.find?_cons_of_neg]
        · exact hqdef
        · simp [freshPackage, Ne.symm hqp]
      have := ih (addPackageDefinition vm f p).2 h1 ⟨q, hq', hdef1⟩
      simp [addMulPackageLoop, hres, this]

/-- `addMulPackageDefinitions`, in the allocation-failure-free regime,
returns `DUPLICATE_PACKAGE_IN_LIST` and restores the state exactly when
some requested package is already present in the loader's table. -/
theorem addMulPackageDefinitions_nil_dup (vm : JavaVM) (f : ModuleId) (ps : List String)
    (h : vm.allocs = [])
    (hl : (lookupAssoc ((getModule vm f).classLoader) vm.loaders).isSome)
    (hex : ∃ p ∈ ps, isPackageDefined vm ((getModule vm f).classLoader) p = true) :
    addMulPackageDefinitions vm f (some ps) = (ErrCode.duplicatePackageInList, vm) := by
  have hfail := addMulPackageLoop_fails f ps vm h hex
  obtain ⟨hcodes, hroll⟩ := addMulPackageLoop_nil f ps vm h hl
  have hne : (addMulPackageLoop f ps vm).1 ≠ ErrCode.success := by
    rw [hfail]
    simp
  have hps : ¬ ps.length = 0 := by
    obtain ⟨p, hp, _⟩ := hex
    cases ps with
    | nil => simp at hp
    | cons a l => simp
  obtain ⟨hzero, hsucc⟩ := hroll hne
  cases hi : (addMulPackageLoop f ps vm).2.1 with
  | zero =>
    have hst := hzero hi
    simp [addMulPackageDefinitions, hps, hfail, hi, hst]
  | succ n =>
    have hst := hsucc n hi
    simp [addMulPackageDefinitions, hps, hfail, hi, hst]

/-! ### Update lemmas for package and module records -/

theorem find?_updateFirstBy_self (p : α → Bool) (f : α → α) (hp : ∀ x, p (f x) = p x) :
    ∀ l : List α, List.find? p (updateFirstBy p f l) = (List.find? p l).map f := by
  intro l
  induction l with
  | nil => simp [updateFirstBy]
  | cons a l ih =>
    by_cases ha : p a = true
    · simp [updateFirstBy, ha, List.find?_cons_of_pos, hp a]
    · simp only [Bool.not_eq_true] at ha
      simp [updateFirstBy, ha, List.find?_cons_of_neg, ih]

theorem find?_updateFirstBy_disjoint (p q : α → Bool) (f : α → α)
    (hdis : ∀ x, p x = true → q x = false) (hq : ∀ x, q (f x) = q x) :
    ∀ l : List α, List.find? q (updateFirstBy p f l) = List.find? q l := by
  intro l
  induction l with
  | nil => simp [updateFirstBy]
  | cons a l ih =>
    by_cases ha : p a = true
    · have hqa := hdis a ha
      simp [updateFirstBy, ha, List.find?_cons_of_neg, hqa, hq a]
    · simp only [Bool.not_eq_true] at ha
      by_cases hqa : q a = true
      · simp [updateFirstBy, ha, List.find?_cons_of_pos, hqa]
      · simp only [Bool.not_eq_true] at hqa
        simp [updateFirstBy, ha, List.find?_cons_of_neg, hqa, ih]

theorem updateFirstBy_fix (p : α → Bool) (f : α → α) :
    ∀ l : List α, (∀ x, List.find? p l = some x → f x = x) → updateFirstBy p f l = l := by
  intro l
  induction l with
  | nil => intro _; rfl
  | cons a l ih =>
    intro hfix
    by_cases ha : p a = true
    · have := hfix a (by simp [List.find?_cons_of_pos, ha])
      simp [updateFirstBy, ha, this]
    · simp only [Bool.not_eq_true] at ha
      have : ∀ x, List.find? p l = some x → f x = x := by
        intro x hx
        exact hfix x (by simp [List.find?_cons_of_neg, ha, hx])
      simp [updateFirstBy, ha, ih this]

theorem getLoader_setLoader (vm : JavaVM) (l : LoaderId) (c : J9ClassLoader) (l' : LoaderId) :
    getLoader (setLoader vm l c) l' = if l' = l then c else getLoader vm l' := by
  by_cases h : l' = l
  · simp [h]
  · simp [h, getLoader_setLoader_ne vm l l' c h]

theorem getModule_updateModule (vm : JavaVM) (m : ModuleId) (f : J9Module → J9Module)
    (m' : ModuleId) :
    getModule (updateModule vm m f) m' = if m' = m then f (getModule vm m)
      else getModule vm m' := by
  by_cases h : m' = m
  · simp [h, updateModule]
  · simp [h, updateModule, getModule_setModule_ne _ _ _ _ h]

theorem setModule_getModule_self (vm : JavaVM) (m : ModuleId)
    (h : (lookupAssoc m vm.modulePool).isSome) : setModule vm m (getModule vm m) = vm := by
  obtain ⟨r, hr⟩ := Option.isSome_iff_exists.mp h
  simp [setModule, getModule, hr, setAssoc_lookupAssoc_self _ _ _ hr]

theorem modulePool_isSome_of_removeExports (vm : JavaVM) (m : ModuleId)
    (h : (getModule vm m).removeExports ≠ []) : (lookupAssoc m vm.modulePool).isSome := by
  cases hlk : lookupAssoc m vm.modulePool with
  | none => exact absurd (by simp [getModule, hlk, J9Module.blank]) h
  | some r => simp

theorem hashPackageTableAt_updateFirstPackage_self (vm : JavaVM) (l : LoaderId) (n : String)
    (f : J9Package → J9Package) (hname : ∀ x, (f x).packageName = x.packageName) :
    hashPackageTableAt (updateFirstPackage vm l n f) l n =
      (hashPackageTableAt vm l n).map f := by
  simp only [hashPackageTableAt, updateFirstPackage, getLoader_setLoader_self]
  exact find?_updateFirstBy_self _ f (fun x => by simp [hname x]) _

theorem hashPackageTableAt_updateFirstPackage_other (vm : JavaVM) (l : LoaderId) (n : String)
    (f : J9Package → J9Package) (hname : ∀ x, (f x).packageName = x.packageName)
    (l' : LoaderId) (n' : String) (h : l' ≠ l ∨ n' ≠ n) :
    hashPackageTableAt (updateFirstPackage vm l n f) l' n' =
      hashPackageTableAt vm l' n' := by
  by_cases hl : l' = l
  · rcases h with h | h
    · exact absurd hl h
    · subst hl
      simp only [hashPackageTableAt, updateFirstPackage, getLoader_setLoader_self]
      refine find?_updateFirstBy_disjoint _ _ f ?_ (fun x => by simp [hname x]) _
      intro x hx
      simp only [beq_iff_eq] at hx
      simp [hx, Ne.symm h]
  · simp only [hashPackageTableAt, updateFirstPackage]
    rw [getLoader_setLoader_ne _ _ _ _ hl]

theorem isModuleDefined_updateFirstPackage (vm : JavaVM) (l : LoaderId) (n : String)
    (f : J9Package → J9Package) (x : ModuleId) :
    isModuleDefined (updateFirstPackage vm l n f) x = isModuleDefined vm x := by
  simp only [isModuleDefined, updateFirstPackage, getModule_setLoader]
  rw [getLoader_setLoader]
  split
  · next heq => rw [heq]
  · rfl

theorem isModuleDefined_updateModule (vm : JavaVM) (m : ModuleId) (f : J9Module → J9Module)
    (hfield : ∀ r, (f r).classLoader = r.classLoader) (x : ModuleId) :
    isModuleDefined (updateModule vm m f) x = isModuleDefined vm x := by
  simp only [isModuleDefined, updateModule_loaders]
  rw [getModule_updateModule]
  split
  · next heq =>
    rw [hfield, heq]
    rfl
  · rfl

theorem find?_beq_of_mem {α : Type} [BEq α] [LawfulBEq α] {x : α} :
    ∀ {l : List α}, x ∈ l → l.find? (fun a => a == x) = some x := by
  intro l
  induction l with
  | nil => intro h; cases h
  | cons a l ih =>
    intro h
    by_cases ha : a = x
    · subst ha
      simp [List.find?_cons_of_pos]
    · have : x ∈ l := by
        rcases List.mem_cons.mp h with he | hm
        · exact absurd he.symm ha
        · exact hm
      rw [List.find?_cons_of_neg _ (by simp [ha])]
      exact ih this

theorem find?_some_beq {α : Type} [BEq α] [LawfulBEq α] {x y : α} {l : List α}
    (h : l.find? (fun a => a == x) = some y) : y = x ∧ y ∈ l := by
  have hy := List.find?_some h
  have hmem := List.mem_of_find?_eq_some h
  simp only [beq_iff_eq] at hy
  exact ⟨hy, hmem⟩

/-- The facts that make a repeated identical qualified export a no-op:
the package is present and owned by `f` with `t` already exported, and
the reverse index already records the pair. -/
def exportEdgeEstablished (vm : JavaVM) (f : ModuleId) (p : String) (t : ModuleId) : Prop :=
  vm.allocs = [] ∧
  isModuleDefined vm f = true ∧
  isModuleDefined vm t = true ∧
  (∃ pkg, hashPackageTableAt vm ((getModule vm f).classLoader) p = some pkg ∧
    pkg.module = f ∧ t ∈ pkg.exportsTo) ∧
  (getModule vm t).removeExportsAllocated = true ∧
  ((getModule vm f).classLoader, p) ∈ (getModule vm t).removeExports

theorem exportPackageToModule_established (vm : JavaVM) (f : ModuleId) (p : String)
    (t : ModuleId) (h : exportEdgeEstablished vm f p t) :
    exportPackageToModule vm f p t = (ErrCode.success, vm) := by
  obtain ⟨hal, hf, ht, ⟨pkg, hpkg, howner, hmem⟩, hralloc, hrmem⟩ := h
  have hgpd : getPackageDefinition vm f p = (some pkg, ErrCode.success) := by
    simp [getPackageDefinition, hf, hpkg, howner]
  have hfind1 : pkg.exportsTo.find? (fun a => a == t) = some t := find?_beq_of_mem hmem
  have hfind2 : (getModule vm t).removeExports.find?
      (fun a => a == ((getModule vm f).classLoader, p)) =
      some ((getModule vm f).classLoader, p) := find?_beq_of_mem hrmem
  have hpres : (lookupAssoc ((getModule vm f).classLoader) vm.loaders).isSome := by
    apply lookupAssoc_isSome_of_table_nonempty
    intro hnil
    simp only [hashPackageTableAt, hnil, List.find?] at hpkg
    cases hpkg
  have hmpres : (lookupAssoc t vm.modulePool).isSome :=
    modulePool_isSome_of_removeExports vm t (by
      intro hnil
      rw [hnil] at hrmem
      cases hrmem)
  have hpkgname : pkg.packageName = p := by
    have := List.find?_some hpkg
    simpa using this
  have hupd : updateFirstPackage vm ((getModule vm f).classLoader) pkg.packageName
      (fun pk => { pk with exportsTo := pkg.exportsTo }) = vm := by
    simp only [updateFirstPackage]
    rw [updateFirstBy_fix]
    · exact setLoader_getLoader_self vm _ hpres
    · intro x hx
      rw [hpkgname] at hx
      have : x = pkg := by
        rw [hashPackageTableAt] at hpkg
        rw [hpkg] at hx
        exact (Option.some_inj.mp hx).symm
      rw [this]
  have hrev : exportReversePut vm ((getModule vm f).classLoader) pkg.packageName t =
      (ErrCode.success, vm) := by
    simp only [exportReversePut, hal, hpkgname, hashTableAtPut, hfind2]
    simp only [Bool.false_eq_true, if_false, reduceCtorEq, if_pos rfl]
    rw [setAllocs_eq_self vm [] hal]
    have : (fun mm : J9Module => { mm with removeExports := (getModule vm t).removeExports })
        (getModule vm t) = getModule vm t := rfl
    simp only [updateModule, this, setModule_getModule_self vm t hmpres]
    simp
  simp only [exportPackageToModule, hgpd, ht, if_true, hal, hashTableAtPut, hfind1]
  simp only [Bool.false_eq_true, if_false, reduceCtorEq, if_pos rfl]
  rw [setAllocs_eq_self vm [] hal, hupd]
  simp [exportReverseSegment, hralloc, hrev]

@[simp] theorem getModule_updateFirstPackage (vm : JavaVM) (l : LoaderId) (n : String)
    (f : J9Package → J9Package) (x : ModuleId) :
    getModule (updateFirstPackage vm l n f) x = getModule vm x := rfl

@[simp] theorem updateFirstPackage_allocs (vm : JavaVM) (l : LoaderId) (n : String)
    (f : J9Package → J9Package) : (updateFirstPackage vm l n f).allocs = vm.allocs := rfl

theorem hashPackageTableAt_of_loaders_eq (vm vm' : JavaVM) (h : vm'.loaders = vm.loaders)
    (l : LoaderId) (n : String) : hashPackageTableAt vm' l n = hashPackageTableAt vm l n := by
  simp [hashPackageTableAt, getLoader, h]

theorem exportReversePut_nil (vm : JavaVM) (L : LoaderId) (p : String) (t : ModuleId)
    (hal : vm.allocs = []) :
    (exportReversePut vm L p t).1 = ErrCode.success ∧
    (exportReversePut vm L p t).2.allocs = [] ∧
    (exportReversePut vm L p t).2.loaders = vm.loaders ∧
    (∀ x, (getModule (exportReversePut vm L p t).2 x).classLoader =
      (getModule vm x).classLoader) ∧
    (∀ x, isModuleDefined (exportReversePut vm L p t).2 x = isModuleDefined vm x) ∧
    (getModule (exportReversePut vm L p t).2 t).removeExportsAllocated =
      (getModule vm t).removeExportsAllocated ∧
    (L, p) ∈ (getModule (exportReversePut vm L p t).2 t).removeExports := by
  cases hfind : (getModule vm t).removeExports.find? (fun a => a == (L, p)) with
  | some y =>
    obtain ⟨hy, hymem⟩ := find?_some_beq hfind
    subst hy
    have hred : exportReversePut vm L p t =
        (ErrCode.success, updateModule { vm with allocs := [] } t
          (fun mm => { mm with removeExports := (getModule vm t).removeExports })) := by
      simp [exportReversePut, hal, hashTableAtPut, hfind]
    rw [hred, setAllocs_eq_self vm [] hal]
    refine ⟨rfl, by simp [hal], by simp, fun x => ?_, fun x => ?_, ?_, ?_⟩
    · rw [getModule_updateModule]
      split
      · next he => rw [he]
      · rfl
    · exact isModuleDefined_updateModule vm t
        (fun mm => { mm with removeExports := (getModule vm t).removeExports })
        (fun r => rfl) x
    · rw [getModule_updateModule]
      simp
    · rw [getModule_updateModule]
      simpa using hymem
  | none =>
    have hred : exportReversePut vm L p t =
        (ErrCode.success, updateModule { vm with allocs := [] } t
          (fun mm => { mm with removeExports := (L, p) :: (getModule vm t).removeExports })) := by
      simp [exportReversePut, hal, hashTableAtPut, hfind]
    rw [hred, setAllocs_eq_self vm [] hal]
    refine ⟨rfl, by simp [hal], by simp, fun x => ?_, fun x => ?_, ?_, ?_⟩
    · rw [getModule_updateModule]
      split
      · next he => rw [he]
      · rfl
    · exact isModuleDefined_updateModule vm t
        (fun mm => { mm with removeExports := (L, p) :: (getModule vm t).removeExports })
        (fun r => rfl) x
    · rw [getModule_updateModule]
      simp
    · rw [getModule_updateModule]
      simp

theorem exportReverseSegment_established (w : JavaVM) (f : ModuleId) (p : String) (t : ModuleId)
    (hal : w.allocs = [])
    (hf : isModuleDefined w f = true)
    (ht : isModuleDefined w t = true)
    (hpkg : ∃ pk, hashPackageTableAt w ((getModule w f).classLoader) p = some pk ∧
      pk.module = f ∧ t ∈ pk.exportsTo) :
    (exportReverseSegment w ((getModule w f).classLoader) p t).1 = ErrCode.success ∧
    exportEdgeEstablished (exportReverseSegment w ((getModule w f).classLoader) p t).2 f p t := by
  by_cases hra : (getModule w t).removeExportsAllocated = true
  · have hred : exportReverseSegment w ((getModule w f).classLoader) p t =
        exportReversePut w ((getModule w f).classLoader) p t := by
      simp [exportReverseSegment, hra]
    rw [hred]
    obtain ⟨hc, hall, hld, hcl, hdef, hrall, hrmem⟩ :=
      exportReversePut_nil w ((getModule w f).classLoader) p t hal
    obtain ⟨pk, hpk, hpkmod, hpkmem⟩ := hpkg
    refine ⟨hc, hall, by rw [hdef]; exact hf, by rw [hdef]; exact ht, ?_, ?_, ?_⟩
    · refine ⟨pk, ?_, hpkmod, hpkmem⟩
      rw [hcl f, hashPackageTableAt_of_loaders_eq w _ hld]
      exact hpk
    · rw [hrall]; exact hra
    · rw [hcl f]; exact hrmem
  · have hred : exportReverseSegment w ((getModule w f).classLoader) p t =
        exportReversePut (updateModule w t (fun m => { m with removeExportsAllocated := true }))
          ((getModule w f).classLoader) p t := by
      simp [exportReverseSegment, hra, takeAlloc_nil w hal]
    set wA := updateModule w t (fun m => { m with removeExportsAllocated := true }) with hwA
    have halA : wA.allocs = [] := by rw [hwA]; simpa using hal
    have hldA : wA.loaders = w.loaders := by rw [hwA]; simp
    have hclA : ∀ x, (getModule wA x).classLoader = (getModule w x).classLoader := by
      intro x
      rw [hwA, getModule_updateModule]
      split
      · next he => rw [he]
      · rfl
    have hdefA : ∀ x, isModuleDefined wA x = isModuleDefined w x := by
      intro x
      rw [hwA]
      exact isModuleDefined_updateModule w t
        (fun m => { m with removeExportsAllocated := true }) (fun r => rfl) x
    have hraA : (getModule wA t).removeExportsAllocated = true := by
      rw [hwA, getModule_updateModule]
      simp
    rw [hred]
    obtain ⟨hc, hall, hld, hcl, hdef, hrall, hrmem⟩ :=
      exportReversePut_nil wA ((getModule w f).classLoader) p t halA
    obtain ⟨pk, hpk, hpkmod, hpkmem⟩ := hpkg
    refine ⟨hc, hall, ?_, ?_, ?_, ?_, ?_⟩
    · rw [hdef f, hdefA f]; exact hf
    · rw [hdef t, hdefA t]; exact ht
    · refine ⟨pk, ?_, hpkmod, hpkmem⟩
      rw [hcl f, hclA f, hashPackageTableAt_of_loaders_eq wA _ hld,
        hashPackageTableAt_of_loaders_eq w wA hldA]
      exact hpk
    · rw [hrall]; exact hraA
    · rw [hcl f, hclA f]; exact hrmem

theorem exportPackageToModule_first (vm : JavaVM) (f : ModuleId) (p : String) (t : ModuleId)
    (pkg : J9Package)
    (hal : vm.allocs = [])
    (hf : isModuleDefined vm f = true)
    (hpkg : hashPackageTableAt vm ((getModule vm f).classLoader) p = some pkg)
    (howner : pkg.module = f)
    (ht : isModuleDefined vm t = true) :
    (exportPackageToModule vm f p t).1 = ErrCode.success ∧
    exportEdgeEstablished (exportPackageToModule vm f p t).2 f p t := by
  have hgpd : getPackageDefinition vm f p = (some pkg, ErrCode.success) := by
    simp [getPackageDefinition, hf, hpkg, howner]
  have hpkgname : pkg.packageName = p := by
    have := List.find?_some hpkg
    simpa using this
  have hpres : (lookupAssoc ((getModule vm f).classLoader) vm.loaders).isSome := by
    apply lookupAssoc_isSome_of_table_nonempty
    intro hnil
    simp only [hashPackageTableAt, hnil, List.find?] at hpkg
    cases hpkg
  cases hfind1 : pkg.exportsTo.find? (fun a => a == t) with
  | some y =>
    obtain ⟨hy, hymem⟩ := find?_some_beq hfind1
    rw [hy] at hfind1 hymem
    have hupd : updateFirstPackage vm ((getModule vm f).classLoader) pkg.packageName
        (fun pk => { pk with exportsTo := pkg.exportsTo }) = vm := by
      simp only [updateFirstPackage]
      rw [updateFirstBy_fix]
      · exact setLoader_getLoader_self vm _ hpres
      · intro x hx
        rw [hpkgname] at hx
        have : x = pkg := by
          rw [hashPackageTableAt] at hpkg
          rw [hpkg] at hx
          exact (Option.some_inj.mp hx).symm
        rw [this]
    have hred : exportPackageToModule vm f p t =
        exportReverseSegment vm ((getModule vm f).classLoader) pkg.packageName t := by
      simp only [exportPackageToModule, hgpd, ht, if_true, hal, hashTableAtPut, hfind1]
      simp only [Bool.false_eq_true, if_false, reduceCtorEq, if_pos rfl]
      rw [setAllocs_eq_self vm [] hal, hupd]
      simp
    rw [hred, hpkgname]
    exact exportReverseSegment_established vm f p t hal hf ht ⟨pkg, hpkg, howner, hymem⟩
  | none =>
    have hred : exportPackageToModule vm f p t =
        exportReverseSegment
          (updateFirstPackage vm ((getModule vm f).classLoader) pkg.packageName
            (fun pk => { pk with exportsTo := t :: pkg.exportsTo }))
          ((getModule vm f).classLoader) pkg.packageName t := by
      simp only [exportPackageToModule, hgpd, ht, if_true, hal, hashTableAtPut, hfind1]
      rw [setAllocs_eq_self vm [] hal]
    set vm1 := updateFirstPackage vm ((getModule vm f).classLoader) pkg.packageName
      (fun pk => { pk with exportsTo := t :: pkg.exportsTo }) with hvm1
    have hal1 : vm1.allocs = [] := by rw [hvm1]; simpa using hal
    have hf1 : isModuleDefined vm1 f = true := by
      rw [hvm1, isModuleDefined_updateFirstPackage]; exact hf
    have ht1 : isModuleDefined vm1 t = true := by
      rw [hvm1, isModuleDefined_updateFirstPackage]; exact ht
    have hcl1 : (getModule vm1 f).classLoader = (getModule vm f).classLoader := by
      rw [hvm1, getModule_updateFirstPackage]
    have hpkg1 : hashPackageTableAt vm1 ((getModule vm1 f).classLoader) p =
        some { pkg with exportsTo := t :: pkg.exportsTo } := by
      rw [hcl1, ← hpkgname, hvm1, hashPackageTableAt_updateFirstPackage_self vm
        ((getModule vm f).classLoader) pkg.packageName
        (fun pk => { pk with exportsTo := t :: pkg.exportsTo })
        (fun x => rfl), hpkgname, hpkg]
      simp [hpkgname]
    rw [hred, hpkgname]
    exact exportReverseSegment_established vm1 f p t hal1 hf1 ht1
      ⟨{ pkg with exportsTo := t :: pkg.exportsTo }, hpkg1, howner, by simp⟩

/-! ### Concrete states used by witnesses and counterexamples -/

/-- A small concrete state: `java.base` already created, one loader (id
0, also the boot loader) owning package "p" (module 1) and modules 1
and 2, every allocation granted. -/
def vmBase : JavaVM :=
  { loaders := [(0, { packageHashTable := [{ packageName := "p", classLoader := 0, module := 1,
                                             exportToAll := false, exportToAllUnnamed := false,
                                             exportsTo := [] }],
                      moduleHashTable := [1, 2], loadedClassPackages := [] })]
    modulePool := [(1, { J9Module.blank with moduleName := some "f", classLoader := 0 }),
                   (2, { J9Module.blank with moduleName := some "t", classLoader := 0 })]
    javaBaseCreated := true, systemClassLoader := 0, extensionClassLoader := 1
    javaBaseModule := 98, unamedModuleForSystemLoader := 99, nextModuleId := 100
    allocs := [], pendingException := none, assertionFailed := false }

/-! ### Claim theorems -/

/-- Concrete state for claim C2: package "a" is owned by a package
record of module 1 in loader 0, no class has been loaded from it, and
module 2 (same loader) is allocated but not yet defined. -/
def vmC2 : JavaVM :=
  { loaders := [(0, { packageHashTable := [{ packageName := "a", classLoader := 0, module := 1,
                                             exportToAll := false, exportToAllUnnamed := false,
                                             exportsTo := [] }],
                      moduleHashTable := [1], loadedClassPackages := [] })]
    modulePool := [(1, { J9Module.blank with moduleName := some "old", classLoader := 0 }),
                   (2, { J9Module.blank with moduleName := some "n", classLoader := 0 })]
    javaBaseCreated := true, systemClassLoader := 0, extensionClassLoader := 1
    javaBaseModule := 98, unamedModuleForSystemLoader := 99, nextModuleId := 100
    allocs := [], pendingException := none, assertionFailed := false }

/-- Claim C2 counterexample: with package "a" already owned by a package
record of another module (module 1) of the same class loader, and
`java.base` created, `addModuleDefinition` for module 2 with packages
["a"] returns `DUPLICATE_PACKAGE_IN_LIST` — not
`PACKAGE_ALREADY_DEFINED` as the claim states (that code only arises
when a class was already loaded from a requested package). -/
theorem c2_counterexample :
    vmC2.javaBaseCreated = true ∧
    (hashPackageTableAt vmC2 0 "a").map (fun pkg => pkg.module) = some 1 ∧
    (getModule vmC2 2).classLoader = 0 ∧
    (addModuleDefinition vmC2 2 (some ["a"]) none).1 = ErrCode.duplicatePackageInList ∧
    ¬ (addModuleDefinition vmC2 2 (some ["a"]) none).1 = ErrCode.packageAlreadyDefined := by
  decide

/-- Claim C2 (amended): after `java.base` is created, a defineModule
request one of whose packages is already owned by another package
record of the same class loader fails — with `PACKAGE_ALREADY_DEFINED`
exactly when a class has already been loaded from one of the requested
packages, and otherwise with `DUPLICATE_PACKAGE_IN_LIST` (the insert
collision) — and the state is restored exactly: the module is not newly
defined and none of the requested packages is newly owned. -/
theorem c2_packageConflict (vm : JavaVM) (m : ModuleId) (ps : List String)
    (version : Option String)
    (hal : vm.allocs = [])
    (hjb : vm.javaBaseCreated = true)
    (hl : (lookupAssoc ((getModule vm m).classLoader) vm.loaders).isSome)
    (hnd : isModuleDefined vm m = false)
    (hex : ∃ p ∈ ps, isPackageDefined vm ((getModule vm m).classLoader) p = true) :
    ((addModuleDefinition vm m (some ps) version).1 = ErrCode.packageAlreadyDefined ∨
      (addModuleDefinition vm m (some ps) version).1 = ErrCode.duplicatePackageInList) ∧
    ((addModuleDefinition vm m (some ps) version).1 = ErrCode.packageAlreadyDefined ↔
      ∃ p ∈ ps, isAnyClassLoadedFromPackage vm ((getModule vm m).classLoader) p = true) ∧
    (addModuleDefinition vm m (some ps) version).2 = vm := by
  have hareno : areNoPackagesDefined vm ((getModule vm m).classLoader) (some ps) = true ↔
      ¬ ∃ p ∈ ps, isAnyClassLoadedFromPackage vm ((getModule vm m).classLoader) p = true := by
    simp [areNoPackagesDefined, hjb, List.all_eq_true]
  by_cases hno : areNoPackagesDefined vm ((getModule vm m).classLoader) (some ps) = true
  · have hnoclass := hareno.mp hno
    have hmul := addMulPackageDefinitions_nil_dup vm m ps hal hl hex
    have hred : addModuleDefinition vm m (some ps) version =
        (ErrCode.duplicatePackageInList, vm) := by
      simp [addModuleDefinition, hno, hnd, hmul]
    rw [hred]
    exact ⟨Or.inr rfl, by simp [hnoclass], rfl⟩
  · have hred : addModuleDefinition vm m (some ps) version =
        (ErrCode.packageAlreadyDefined, vm) := by
      simp [addModuleDefinition, hno]
    rw [hred]
    refine ⟨Or.inl rfl, ?_, rfl⟩
    simp only [true_iff]
    by_contra hcon
    exact hno (hareno.mpr hcon)

theorem addMulPackageLoop_code (f : ModuleId) (ps : List String) (vm : JavaVM) :
    (addMulPackageLoop f ps vm).1 = ErrCode.success ∨
    (addMulPackageLoop f ps vm).1 = ErrCode.duplicatePackageInList := by
  induction ps generalizing vm with
  | nil => simp [addMulPackageLoop]
  | cons p rest ih =>
    simp only [addMulPackageLoop]
    split
    · exact ih _
    · split
      · exact Or.inr rfl
      · exact Or.inl rfl

theorem addMulPackageDefinitions_code (vm : JavaVM) (f : ModuleId)
    (ps : Option (List String)) :
    (addMulPackageDefinitions vm f ps).1 = ErrCode.success ∨
    (addMulPackageDefinitions vm f ps).1 = ErrCode.duplicatePackageInList := by
  simp only [addMulPackageDefinitions]
  split
  · exact Or.inl rfl
  · split
    · exact Or.inl rfl
    · split
      · split
        · exact addMulPackageLoop_code f _ _
        · exact addMulPackageLoop_code f _ _
      · exact addMulPackageLoop_code f _ _

/-- Concrete state for claims C1 and C3: `java.base` created, loader 0
empty, module 5 allocated (not yet defined).  The allocation oracle
grants the first package's record and its table insert, then denies the
second package's record allocation. -/
def vmC1 : JavaVM :=
  { loaders := [(0, J9ClassLoader.empty)]
    modulePool := [(5, { J9Module.blank with moduleName := some "m", classLoader := 0 })]
    javaBaseCreated := true, systemClassLoader := 0, extensionClassLoader := 1
    javaBaseModule := 98, unamedModuleForSystemLoader := 99, nextModuleId := 100
    allocs := [true, true, false], pendingException := none, assertionFailed := false }

/-- Claim C1 (code bug, evaluation): at this input the package-insertion
phase fails at the second package ("b" — its record allocation fails,
and "b" is not present in the table, so `retval` keeps
`ERRCODE_SUCCESS`), yet the call returns `SUCCESS`: the first package
"a" is NOT rolled back, and the module is then registered owning only
"a" — the all-or-nothing guarantee is violated. -/
theorem c1_no_rollback_on_alloc_failure :
    (addMulPackageDefinitions vmC1 5 (some ["a", "b"])).1 = ErrCode.success ∧
    isPackageDefined (addMulPackageDefinitions vmC1 5 (some ["a", "b"])).2 0 "a" = true ∧
    (addModuleDefinition vmC1 5 (some ["a", "b"]) none).1 = ErrCode.success ∧
    isModuleDefined (addModuleDefinition vmC1 5 (some ["a", "b"]) none).2 5 = true ∧
    isPackageDefined (addModuleDefinition vmC1 5 (some ["a", "b"]) none).2 0 "a" = true ∧
    isPackageDefined (addModuleDefinition vmC1 5 (some ["a", "b"]) none).2 0 "b" = false := by
  decide

/-- Concrete state for claim C3's counterexample: module 7 allocated in
loader 0; the allocation oracle denies the module-table insert. -/
def vmC3 : JavaVM :=
  { loaders := [(0, J9ClassLoader.empty)]
    modulePool := [(7, { J9Module.blank with moduleName := some "n", classLoader := 0 })]
    javaBaseCreated := true, systemClassLoader := 0, extensionClassLoader := 1
    javaBaseModule := 98, unamedModuleForSystemLoader := 99, nextModuleId := 100
    allocs := [false], pendingException := none, assertionFailed := false }

/-- Claim C3 counterexample: the module-table insert fails, so the
module's registration does not succeed (`HASHTABLE_OPERATION_FAILED`,
`isModuleDefined` false) — yet the version has been stored in the
record, contradicting "if the registration does not succeed, the
version is never stored". -/
theorem c3_counterexample :
    (addModuleDefinition vmC3 7 none (some "9")).1 = ErrCode.hashtableOperationFailed ∧
    isModuleDefined (addModuleDefinition vmC3 7 none (some "9")).2 7 = false ∧
    (getModule (addModuleDefinition vmC3 7 none (some "9")).2 7).version = some "9" := by
  decide

/-- Claim C3 (amended): the version, when supplied, is written after the
package phase succeeded and right after the module-table insertion is
attempted — it is stored whether or not that insertion succeeded (the
caller frees the record on failure), and it is never stored on the
earlier-exit error paths. -/
theorem c3_version_write_placement (vm : JavaVM) (m : ModuleId)
    (ps : Option (List String)) (v : String) :
    (((addModuleDefinition vm m ps (some v)).1 = ErrCode.success ∨
      (addModuleDefinition vm m ps (some v)).1 = ErrCode.hashtableOperationFailed) →
      (getModule (addModuleDefinition vm m ps (some v)).2 m).version = some v) ∧
    (((addModuleDefinition vm m ps (some v)).1 = ErrCode.packageAlreadyDefined ∨
      (addModuleDefinition vm m ps (some v)).1 = ErrCode.moduleAlreadyDefined ∨
      (addModuleDefinition vm m ps (some v)).1 = ErrCode.duplicatePackageInList) →
      (getModule (addModuleDefinition vm m ps (some v)).2 m).version =
        (getModule vm m).version) := by
  simp only [addModuleDefinition]
  split
  · exact ⟨fun hc => by rcases hc with h | h <;> simp at h, fun _ => rfl⟩
  · split
    · exact ⟨fun hc => by rcases hc with h | h <;> simp at h, fun _ => rfl⟩
    · split
      · next hsucc =>
        split
        · next hput =>
          constructor
          · intro _
            have hpool : (match ps with
                | some ps' => removeMulPackageDefinitions m ps' ps'.length
                    (updateModule (moduleTableAtPut (addMulPackageDefinitions vm m ps).2
                      ((getModule vm m).classLoader) m true).2 m
                      (fun r => { r with version := some v }))
                | none => updateModule (moduleTableAtPut (addMulPackageDefinitions vm m ps).2
                      ((getModule vm m).classLoader) m true).2 m
                      (fun r => { r with version := some v })).modulePool =
                (updateModule (moduleTableAtPut (addMulPackageDefinitions vm m ps).2
                  ((getModule vm m).classLoader) m true).2 m
                  (fun r => { r with version := some v })).modulePool := by
              cases ps <;> simp
            rw [getModule_of_pool_eq _ _ hpool]
            simp [updateModule]
          · intro hc
            rcases hc with h | h | h <;> simp at h
        · constructor
          · intro _
            simp [updateModule]
          · intro hc
            rcases hc with h | h | h <;> simp at h
      · next hne =>
        constructor
        · intro hc
          rcases addMulPackageDefinitions_code vm m ps with hcode | hcode
          · exact absurd hcode hne
          · rcases hc with h | h <;> rw [hcode] at h <;> cases h
        · intro _
          have hpool := addMulPackageDefinitions_modulePool vm m ps
          rw [getModule_of_pool_eq _ _ hpool]

/-- Witness for claim C3 at a concrete input (the module-insert-failure
path of the counterexample state). -/
theorem c3_version_write_placement_witness :
    (getModule (addModuleDefinition vmC3 7 none (some "9")).2 7).version = some "9" :=
  (c3_version_write_placement vmC3 7 none "9").1 (Or.inr (by decide))

/-- Concrete state for claim C5: module 1 ("a") is defined in loader 0;
module 4 is an unnamed module of another loader (2). -/
def vmC5 : JavaVM :=
  { loaders := [(0, { packageHashTable := [], moduleHashTable := [1],
                      loadedClassPackages := [] })]
    modulePool := [(1, { J9Module.blank with moduleName := some "a", classLoader := 0 }),
                   (4, { J9Module.blank with moduleName := none, classLoader := 2 })]
    javaBaseCreated := true, systemClassLoader := 0, extensionClassLoader := 1
    javaBaseModule := 98, unamedModuleForSystemLoader := 99, nextModuleId := 100
    allocs := [], pendingException := none, assertionFailed := false }

/-- Claim C5: for every defined module A and unnamed module U,
`allowReadAccessToModule(A, U)` succeeds and its entire effect is
setting A's `isLoose` flag (no per-edge storage is written); thereafter,
in any state in which A's record is loose — including states whose
class loaders and unnamed modules were created after the call —
`JVM_CanReadModule(A, V)` answers true for every unnamed module V. -/
theorem c5_allowRead_unnamed_loose (vm : JavaVM) (A U : ModuleId)
    (hA : isModuleDefined vm A = true)
    (hU : (getModule vm U).moduleName = none) :
    (allowReadAccessToModule vm A (some U)).1 = ErrCode.success ∧
    (allowReadAccessToModule vm A (some U)).2 =
      updateModule vm A (fun r => { r with isLoose := true }) ∧
    (getModule (allowReadAccessToModule vm A (some U)).2 A).isLoose = true ∧
    (∀ (st : JavaVM) (V : ModuleId), (getModule st A).isLoose = true →
      (getModule st V).moduleName = none → (JVM_CanReadModule st A V).1 = true) := by
  have hun : J9_IS_J9MODULE_UNNAMED vm (some U) = true := by
    simp [J9_IS_J9MODULE_UNNAMED, hU]
  refine ⟨?_, ?_, ?_, ?_⟩
  · simp [allowReadAccessToModule, hA, hun]
  · simp [allowReadAccessToModule, hA, hun]
  · simp [allowReadAccessToModule, hA, hun, updateModule]
  · intro st V hloose hVun
    by_cases hAV : A = V
    · simp [JVM_CanReadModule, hAV]
    · simp [JVM_CanReadModule, hAV, isAllowedReadAccessToModule, hloose, hVun]

/-- Witness for claim C5 at a concrete input. -/
theorem c5_allowRead_unnamed_loose_witness :
    (allowReadAccessToModule vmC5 1 (some 4)).1 = ErrCode.success ∧
    (getModule (allowReadAccessToModule vmC5 1 (some 4)).2 1).isLoose = true ∧
    (JVM_CanReadModule (allowReadAccessToModule vmC5 1 (some 4)).2 1 4).1 = true := by
  have h := c5_allowRead_unnamed_loose vmC5 1 4 (by decide) (by decide)
  exact ⟨h.1, h.2.2.1, h.2.2.2 _ 4 h.2.2.1 (by decide)⟩

/-- Witness for claim C2 at a concrete input. -/
theorem c2_packageConflict_witness :
    (addModuleDefinition vmC2 2 (some ["a"]) none).2 = vmC2 :=
  (c2_packageConflict vmC2 2 ["a"] none rfl rfl (by decide) (by decide)
    ⟨"a", by decide, by decide⟩).2.2


/-- Claim C6: `canRead(m, m)` returns true for every module `m`, with no
prior setup — the handle-equality shortcut of `JVM_CanReadModule`
answers before any lookup or lock-protected work, and the state is
untouched. -/
theorem c6_canRead_self (vm : JavaVM) (m : ModuleId) :
    JVM_CanReadModule vm m m = (true, vm) := by
  simp [JVM_CanReadModule]

/-- Claim C10: `JVM_DefineModule` always returns its `module` argument:
the source has a single exit (`done: ... return module;`), reached by
the success path and by every failure path. -/
theorem c10_defineModule_returns_module (vm : JavaVM) (module : Option ModuleObject)
    (io : Bool) (ver : Option String) (pa : Option (List (Option String))) :
    (JVM_DefineModule vm module io ver pa).1 = module := rfl

/-- Claim C9: the process-wide `javaBaseCreated` flag is monotonic —
every subsystem operation preserves it once set (no operation resets
it), and it is raised only by a `JVM_DefineModule` call that reaches the
bootstrap success branch, which (unless its `Assert_SC_true` tripped)
defined a module named `java.base`. -/
theorem c9_javaBaseCreated_monotonic (op : ModOp) (vm : JavaVM) :
    (vm.javaBaseCreated = true → (stepOp op vm).javaBaseCreated = true) ∧
    ((stepOp op vm).javaBaseCreated = true →
      vm.javaBaseCreated = true ∨
      ∃ obj io ver pa, op = ModOp.defineModule (some obj) io ver pa ∧
        ((stepOp op vm).assertionFailed = false → obj.name = some "java.base")) := by
  cases op with
  | defineModule m io ver pa =>
    rcases JVM_DefineModuleState_flag_cases vm m io ver pa with h | ⟨h1, h2, obj, hm, h3⟩
    · refine ⟨fun hb => ?_, fun hb => Or.inl ?_⟩
      · show (JVM_DefineModuleState vm m io ver pa).javaBaseCreated = true
        rw [h]; exact hb
      · have hstep : (JVM_DefineModuleState vm m io ver pa).javaBaseCreated = true := hb
        rw [h] at hstep; exact hstep
    · refine ⟨fun hb => ?_, fun _ => Or.inr ⟨obj, io, ver, pa, by rw [hm], h3⟩⟩
      rw [hb] at h1; cases h1
  | addModuleExports f p t =>
    exact ⟨fun hb => by simpa [stepOp] using hb, fun hb => Or.inl (by simpa [stepOp] using hb)⟩
  | addModuleExportsToAll f p =>
    exact ⟨fun hb => by simpa [stepOp] using hb, fun hb => Or.inl (by simpa [stepOp] using hb)⟩
  | addReadsModule f t =>
    exact ⟨fun hb => by simpa [stepOp] using hb, fun hb => Or.inl (by simpa [stepOp] using hb)⟩
  | canReadModule a s =>
    exact ⟨fun hb => by simpa [stepOp] using hb, fun hb => Or.inl (by simpa [stepOp] using hb)⟩

/-- Witness for claim C9 at a concrete operation and state. -/
theorem c9_javaBaseCreated_monotonic_witness :
    (stepOp (ModOp.canReadModule 0 0) vmBase).javaBaseCreated = true :=
  (c9_javaBaseCreated_monotonic (ModOp.canReadModule 0 0) vmBase).1 rfl

/-- Claim C4: for a package `p` present in the table of module `f`'s
class loader and owned by `f`, and a registered target module `t`, with
no allocation failure pending, `exportPackageToModule` returns `SUCCESS`
on the first call, and an identical second call returns `SUCCESS` again
and leaves the state of the first call exactly unchanged — in
particular the exports set of `p` after the second call equals the set
after the first, and the repeated export duplicates no storage. -/
theorem c4_export_idempotent (vm : JavaVM) (f : ModuleId) (p : String) (t : ModuleId)
    (pkg : J9Package)
    (hal : vm.allocs = [])
    (hf : isModuleDefined vm f = true)
    (hpkg : hashPackageTableAt vm ((getModule vm f).classLoader) p = some pkg)
    (howner : pkg.module = f)
    (ht : isModuleDefined vm t = true) :
    (exportPackageToModule vm f p t).1 = ErrCode.success ∧
    exportPackageToModule (exportPackageToModule vm f p t).2 f p t =
      (ErrCode.success, (exportPackageToModule vm f p t).2) := by
  obtain ⟨h1, h2⟩ := exportPackageToModule_first vm f p t pkg hal hf hpkg howner ht
  exact ⟨h1, exportPackageToModule_established _ f p t h2⟩

/-- Witness for claim C4 at a concrete input. -/
theorem c4_export_idempotent_witness :
    (exportPackageToModule vmBase 1 "p" 2).1 = ErrCode.success ∧
    exportPackageToModule (exportPackageToModule vmBase 1 "p" 2).2 1 "p" 2 =
      (ErrCode.success, (exportPackageToModule vmBase 1 "p" 2).2) :=
  c4_export_idempotent vmBase 1 "p" 2
    { packageName := "p", classLoader := 0, module := 1,
      exportToAll := false, exportToAllUnnamed := false, exportsTo := [] }
    rfl (by decide) (by decide) rfl (by decide)

/-- The reverse-index relationship asserted by the spec: a module sits
in a package's `exportsTo` exactly when the package is recorded in that
module's `removeExportsHashTable`, and a module sits in another's
`readAccessHashTable` exactly when the latter is recorded in the
former's `removeAccessHashTable`. -/
def reverseIndexInvariant (vm : JavaVM) : Prop :=
  (∀ (L : LoaderId) (p : String) (pk : J9Package) (t : ModuleId),
      hashPackageTableAt vm L p = some pk →
      (t ∈ pk.exportsTo ↔ (L, pk.packageName) ∈ (getModule vm t).removeExports)) ∧
  (∀ (f t : ModuleId),
      f ∈ (getModule vm t).readAccess ↔ t ∈ (getModule vm f).removeAccess)

/-- Concrete state for claim C7: modules 1 and 2 defined in loader 0
with empty access tables, and an allocation oracle granting the forward
`readAccessHashTable` insert but denying the creation of module 1's
`removeAccessHashTable`. -/
def vmC7 : JavaVM :=
  { loaders := [(0, { packageHashTable := [], moduleHashTable := [1, 2],
                      loadedClassPackages := [] })]
    modulePool := [(1, { J9Module.blank with moduleName := some "f", classLoader := 0 }),
                   (2, { J9Module.blank with moduleName := some "t", classLoader := 0 })]
    javaBaseCreated := true, systemClassLoader := 0, extensionClassLoader := 1
    javaBaseModule := 98, unamedModuleForSystemLoader := 99, nextModuleId := 100
    allocs := [true, false], pendingException := none, assertionFailed := false }

theorem vmC7_modules (x : ModuleId) :
    (getModule vmC7 x).readAccess = [] ∧ (getModule vmC7 x).removeAccess = [] := by
  by_cases h1 : x = 1
  · subst h1; exact ⟨rfl, rfl⟩
  · by_cases h2 : x = 2
    · subst h2; exact ⟨rfl, rfl⟩
    · have hl : lookupAssoc x vmC7.modulePool = none := by
        simp [vmC7, lookupAssoc, Ne.symm h1, Ne.symm h2]
      simp [getModule, hl, J9Module.blank]

theorem vmC7_packages (L : LoaderId) (p : String) :
    hashPackageTableAt vmC7 L p = none := by
  by_cases h0 : L = 0
  · subst h0; rfl
  · have hl : lookupAssoc L vmC7.loaders = none := by
      simp [vmC7, lookupAssoc, Ne.symm h0]
    simp [hashPackageTableAt, getLoader, hl, J9ClassLoader.empty]

theorem vmC7_invariant : reverseIndexInvariant vmC7 := by
  constructor
  · intro L p pk t hpk
    rw [vmC7_packages L p] at hpk
    cases hpk
  · intro f t
    rw [(vmC7_modules t).1, (vmC7_modules f).2]
    simp

/-- Claim C7: counterexample — from a state satisfying the reverse-index
relationship, `allowReadAccessToModule` with the forward insert's
allocation granted and the lazy creation of `removeAccessHashTable`
denied returns `SUCCESS` (the `retval = ERRCODE_HASHTABLE_OPERATION_FAILED`
assigned in the null-table branch is overwritten by the final
`if (success)`), leaving the forward read entry present with no reverse
entry: the relationship does not hold after every completed operation. -/
theorem c7_reverse_index_break :
    reverseIndexInvariant vmC7 ∧
    (allowReadAccessToModule vmC7 1 (some 2)).1 = ErrCode.success ∧
    1 ∈ (getModule (allowReadAccessToModule vmC7 1 (some 2)).2 2).readAccess ∧
    2 ∉ (getModule (allowReadAccessToModule vmC7 1 (some 2)).2 1).removeAccess ∧
    ¬ reverseIndexInvariant (allowReadAccessToModule vmC7 1 (some 2)).2 := by
  refine ⟨vmC7_invariant, by decide, by decide, by decide, ?_⟩
  intro hinv
  have h2 := (hinv.2 1 2).mp (by decide)
  revert h2
  decide

theorem copyPackageStrings_state (l : List (Option String)) :
    ∀ vm : JavaVM, ∃ al, (copyPackageStrings vm l).2 = { vm with allocs := al } := by
  induction l with
  | nil => intro vm; exact ⟨vm.allocs, rfl⟩
  | cons o rest ih =>
    intro vm
    cases o with
    | none => exact ⟨vm.allocs, rfl⟩
    | some s =>
      by_cases ht : (takeAlloc vm).1 = true
      · obtain ⟨al0, h0⟩ := takeAlloc_state vm
        obtain ⟨al1, h1⟩ := ih (takeAlloc vm).2
        have hred : (copyPackageStrings vm (some s :: rest)).2 =
            (copyPackageStrings (takeAlloc vm).2 rest).2 := by
          simp only [copyPackageStrings, ht, if_true]
          cases hr : (copyPackageStrings (takeAlloc vm).2 rest).1 <;> simp [hr]
        rw [hred, h1, h0]
        exact ⟨al1, rfl⟩
      · obtain ⟨al0, h0⟩ := takeAlloc_state vm
        have hred : (copyPackageStrings vm (some s :: rest)).2 = (takeAlloc vm).2 := by
          simp only [copyPackageStrings]
          simp [ht]
        rw [hred, h0]
        exact ⟨al0, rfl⟩

theorem copyPackageStrings_nil_allocs (ps : List String) :
    ∀ vm : JavaVM, vm.allocs = [] →
      copyPackageStrings vm (ps.map some) = (Except.ok ps, vm) := by
  induction ps with
  | nil => intro vm _; rfl
  | cons s rest ih =>
    intro vm h
    simp only [List.map_cons, copyPackageStrings, takeAlloc_nil vm h, ih vm h]
    simp

/-- Under `java.base`-by-a-non-boot-loader arguments, every branch of
`defineModuleInner` pends an exception without touching the registries,
and the branch reached with no allocation failure and no earlier
`java.*`-package rejection pends the layer-instantiation exception. -/
theorem defineModuleInner_javaBase_nonBoot (vm : JavaVM) (modObj : ModuleObject)
    (io : Bool) (ver : Option String) (packages : List String)
    (hname : modObj.name = some "java.base")
    (hloader : (modObj.loader).getD vm.systemClassLoader ≠ vm.systemClassLoader) :
    (defineModuleInner vm modObj io ver packages).loaders = vm.loaders ∧
    (defineModuleInner vm modObj io ver packages).modulePool = vm.modulePool ∧
    (defineModuleInner vm modObj io ver packages).javaBaseCreated = vm.javaBaseCreated ∧
    (defineModuleInner vm modObj io ver packages).pendingException.isSome = true ∧
    (vm.allocs = [] →
      ((modObj.loader).getD vm.systemClassLoader = vm.extensionClassLoader ∨
        ∀ s ∈ packages, isJavaRootedPackage s = false) →
      (defineModuleInner vm modObj io ver packages).pendingException =
        some ExceptionKind.layerInstantiation) := by
  by_cases hC1 : (((modObj.loader).getD vm.systemClassLoader ≠ vm.systemClassLoader ∧
      (modObj.loader).getD vm.systemClassLoader ≠ vm.extensionClassLoader) ∧
      packages.any isJavaRootedPackage = true)
  · have hred : defineModuleInner vm modObj io ver packages =
        setException vm ExceptionKind.illegalArgument := by
      simp only [defineModuleInner]
      rw [if_pos hC1]
    rw [hred]
    refine ⟨rfl, rfl, rfl, rfl, ?_⟩
    intro _ hjava
    exfalso
    rcases hjava with hextj | hnone
    · exact hC1.1.2 hextj
    · obtain ⟨s, hs, hroot⟩ := List.any_eq_true.mp hC1.2
      rw [hnone s hs] at hroot
      cases hroot
  · have hname2 : ¬ (modObj.name.isNone = true) := by simp [hname]
    have hval2 : ¬¬ (isModuleNameValid modObj.name = true) := by
      simp [hname, isModuleNameValid, isModuleJavaBase, isModuleNameGood]
    by_cases ht : (takeAlloc vm).1 = true
    · have hred : defineModuleInner vm modObj io ver packages =
          setException (takeAlloc vm).2 ExceptionKind.layerInstantiation := by
        simp only [defineModuleInner]
        rw [if_neg hC1, if_neg hname2, if_neg hval2, if_neg (by simp [ht]),
          if_pos ⟨by rw [takeAlloc_systemClassLoader]; exact hloader,
            by rw [hname]; decide⟩]
      rw [hred]
      exact ⟨by simp, by simp, by simp, by simp, fun _ _ => by simp⟩
    · have hred : defineModuleInner vm modObj io ver packages =
          setException (takeAlloc vm).2 ExceptionKind.outOfMemory := by
        simp only [defineModuleInner]
        rw [if_neg hC1, if_neg hname2, if_neg hval2, if_pos ht]
      rw [hred]
      refine ⟨by simp, by simp, by simp, by simp, fun hal _ => ?_⟩
      exfalso
      rw [takeAlloc_nil vm hal] at ht
      exact ht rfl

/-- Concrete state for claim C8: loader 0 is the boot/system loader,
loader 3 is an application loader; nothing is defined yet. -/
def vmC8 : JavaVM :=
  { loaders := [(0, J9ClassLoader.empty), (3, J9ClassLoader.empty)]
    modulePool := []
    javaBaseCreated := true, systemClassLoader := 0, extensionClassLoader := 1
    javaBaseModule := 98, unamedModuleForSystemLoader := 99, nextModuleId := 100
    allocs := [], pendingException := none, assertionFailed := false }

/-- Counterexample to claim C8 as stated: loader 3 (neither the boot
nor the platform loader) defines "java.base" with requested package
"java.x"; the `java.*`-package check precedes the `java.base` name
check, so the call fails with the generic IllegalArgumentException, not
the distinct layer-instantiation outcome the claim requires for every
non-boot attempt. -/
theorem c8_counterexample :
    (JVM_DefineModuleState vmC8
        (some { oid := 42, loader := some 3, name := some "java.base" })
        false none (some [some "java.x"])).pendingException =
      some ExceptionKind.illegalArgument ∧
    ExceptionKind.illegalArgument ≠ ExceptionKind.layerInstantiation :=
  ⟨by decide, by decide⟩

/-- Claim C8 (amended): every attempt to define a module named
`java.base` whose owning loader is not the boot/system loader fails —
an exception is always pended — and never mutates the loader tables,
the module pool, or the `javaBaseCreated` flag; the failure is the
distinct layer-instantiation category whenever no allocation fails and
the earlier `java.*`-package check does not fire first (the loader is
the platform loader, or no requested package is `java`-rooted). -/
theorem c8_javaBase_nonBoot (vm : JavaVM) (modObj : ModuleObject) (io : Bool)
    (ver : Option String) (pa : Option (List (Option String)))
    (hname : modObj.name = some "java.base")
    (hloader : (modObj.loader).getD vm.systemClassLoader ≠ vm.systemClassLoader) :
    (JVM_DefineModuleState vm (some modObj) io ver pa).loaders = vm.loaders ∧
    (JVM_DefineModuleState vm (some modObj) io ver pa).modulePool = vm.modulePool ∧
    (JVM_DefineModuleState vm (some modObj) io ver pa).javaBaseCreated = vm.javaBaseCreated ∧
    (JVM_DefineModuleState vm (some modObj) io ver pa).pendingException.isSome = true ∧
    (∀ ps : List String, vm.allocs = [] → pa = some (ps.map some) →
      ((modObj.loader).getD vm.systemClassLoader = vm.extensionClassLoader ∨
        ∀ s ∈ ps, isJavaRootedPackage s = false) →
      (JVM_DefineModuleState vm (some modObj) io ver pa).pendingException =
        some ExceptionKind.layerInstantiation) := by
  cases pa with
  | none =>
    refine ⟨by simp [JVM_DefineModuleState], by simp [JVM_DefineModuleState],
      by simp [JVM_DefineModuleState], by simp [JVM_DefineModuleState], ?_⟩
    intro ps _ hpa
    cases hpa
  | some arr =>
    by_cases ht : (takeAlloc vm).1 = true
    · cases hconv : (copyPackageStrings (takeAlloc vm).2 arr).1 with
      | error e =>
        have hred : JVM_DefineModuleState vm (some modObj) io ver (some arr) =
            setException (copyPackageStrings (takeAlloc vm).2 arr).2 e := by
          simp [JVM_DefineModuleState, ht, hconv]
        obtain ⟨alT, hT⟩ := takeAlloc_state vm
        obtain ⟨alC, hC⟩ := copyPackageStrings_state arr (takeAlloc vm).2
        have hCv : (copyPackageStrings (takeAlloc vm).2 arr).2 = { vm with allocs := alC } := by
          rw [hC, hT]
        rw [hred]
        refine ⟨by simp [hCv], by simp [hCv], by simp [hCv], by simp, ?_⟩
        intro ps hal hpa _
        injection hpa with hpa'
        subst hpa'
        exfalso
        rw [takeAlloc_nil vm hal, copyPackageStrings_nil_allocs ps vm hal] at hconv
        cases hconv
      | ok packages =>
        have hred : JVM_DefineModuleState vm (some modObj) io ver (some arr) =
            defineModuleInner (copyPackageStrings (takeAlloc vm).2 arr).2 modObj io ver
              packages := by
          simp [JVM_DefineModuleState, ht, hconv]
        obtain ⟨alT, hT⟩ := takeAlloc_state vm
        obtain ⟨alC, hC⟩ := copyPackageStrings_state arr (takeAlloc vm).2
        have hCv : (copyPackageStrings (takeAlloc vm).2 arr).2 = { vm with allocs := alC } := by
          rw [hC, hT]
        obtain ⟨g1, g2, g3, g4, g5⟩ := defineModuleInner_javaBase_nonBoot
          ((copyPackageStrings (takeAlloc vm).2 arr).2) modObj io ver packages hname
          (by rw [hCv]; exact hloader)
        rw [hred]
        refine ⟨by rw [g1, hCv], by rw [g2, hCv], by rw [g3, hCv], g4, ?_⟩
        intro ps hal hpa hjava
        injection hpa with hpa'
        subst hpa'
        have hcps : copyPackageStrings (takeAlloc vm).2 (ps.map some) = (Except.ok ps, vm) := by
          rw [takeAlloc_nil vm hal]
          exact copyPackageStrings_nil_allocs ps vm hal
        have hok := hconv
        rw [hcps] at hok
        simp only at hok
        have hps : packages = ps := by
          cases hok
          rfl
        subst hps
        have hconv2 : (copyPackageStrings (takeAlloc vm).2 (packages.map some)).2 = vm := by
          rw [hcps]
        apply g5
        · rw [hconv2]; exact hal
        · rw [hconv2]
          exact hjava
    · have hred : JVM_DefineModuleState vm (some modObj) io ver (some arr) =
          setException (takeAlloc vm).2 ExceptionKind.outOfMemory := by
        simp [JVM_DefineModuleState, ht]
      rw [hred]
      refine ⟨by simp, by simp, by simp, by simp, ?_⟩
      intro ps hal _ _
      exfalso
      rw [takeAlloc_nil vm hal] at ht
      exact ht rfl

/-- Witness for claim C8 at a concrete input. -/
theorem c8_javaBase_nonBoot_witness :
    (JVM_DefineModuleState vmC8
        (some { oid := 42, loader := some 3, name := some "java.base" })
        false none (some [some "com.x"])).pendingException =
      some ExceptionKind.layerInstantiation := by
  have h := c8_javaBase_nonBoot vmC8 { oid := 42, loader := some 3, name := some "java.base" }
    false none (some [some "com.x"]) rfl (by decide)
  exact h.2.2.2.2 ["com.x"] rfl rfl (Or.inr (by decide))

end J9
